import Mathlib

/-!
Verification development for the `overseer` run engine (a Python workflow
orchestrator).  The definitions below are a shallow embedding of the source
files `src/context.py`, `src/engine.py`, `src/routing.py`,
`src/tools/files.py` and `src/tools/security.py`; theorems settle the frozen
claims about that code.

Modelling conventions:
* Python values that flow through event payloads are modelled by `PyVal`;
  `pyStr` mirrors Python's `str()` rendering of those values (single-quoted
  strings, `True`/`False`/`None`, insertion-ordered dicts), which the source
  uses for its `len(str(x)) // 4` token estimates.
* Python dicts whose insertion order is observable are modelled by
  association lists with in-place update (`alSet`).
* Wall-clock timestamps are abstracted to a monotone counter in
  `EngineState.clock`; durable journal/artifact writes to disk are abstracted
  away (claims treat journal-write failure as out of scope).
* External effects (the sandboxed filesystem behind `tools/files.py` and the
  subprocess behind `tools/tests.py`) are a `World` parameter; a raised
  exception from such a call is `Except.error`.  All state mutation survives
  an exception, exactly as in Python, so every engine function returns its
  updated `EngineState` alongside an `Except` result.
-/

/-- A Python value as it appears in event payloads and tool results.
`float` keeps the literal digits verbatim (the engine only ever records the
constants 0.015 and 0.0005, never computes with them). -/
inductive PyVal where
  | str (s : String)
  | int (n : Int)
  | float (lit : String)
  | bool (b : Bool)
  | pynone
  | list (xs : List PyVal)
  | dict (kvs : List (String × PyVal))

mutual

/-- Python's `str()` of a `PyVal`: single-quoted strings, `True`/`False`,
`None`, `[a, b]` lists and `{'k': v}` dicts in insertion order. -/
def pyStr : PyVal → String
  | .str s => "'" ++ s ++ "'"
  | .int n => toString n
  | .float lit => lit
  | .bool b => if b then "True" else "False"
  | .pynone => "None"
  | .list xs => "[" ++ pyStrList xs ++ "]"
  | .dict kvs => "\x7b" ++ pyStrDict kvs ++ "\x7d"

/-- Comma-separated rendering of a Python list body. -/
def pyStrList : List PyVal → String
  | [] => ""
  | [x] => pyStr x
  | x :: y :: rest => pyStr x ++ ", " ++ pyStrList (y :: rest)

/-- Comma-separated rendering of a Python dict body. -/
def pyStrDict : List (String × PyVal) → String
  | [] => ""
  | [(k, v)] => "'" ++ k ++ "': " ++ pyStr v
  | (k, v) :: kv :: rest => "'" ++ k ++ "': " ++ pyStr v ++ ", " ++ pyStrDict (kv :: rest)

end

/-- Python truthiness of a `PyVal` (`if scan_result.get("ok"):` etc.). -/
def pyTruthy : PyVal → Bool
  | .str s => s != ""
  | .int n => n != 0
  | .float lit => lit != "0.0" && lit != "0"
  | .bool b => b
  | .pynone => false
  | .list xs => !xs.isEmpty
  | .dict kvs => !kvs.isEmpty

/-- Lookup in an insertion-ordered association list (Python dict `get`). -/
def alGet {α : Type} : List (String × α) → String → Option α
  | [], _ => Option.none
  | (k2, v) :: rest, k => if k2 = k then some v else alGet rest k

/-- Lookup with default (Python `dict.get(k, d)`). -/
def alGetD {α : Type} (m : List (String × α)) (k : String) (d : α) : α :=
  (alGet m k).getD d

/-- Key membership (Python `k in d`). -/
def alHas {α : Type} (m : List (String × α)) (k : String) : Bool :=
  (alGet m k).isSome

/-- Update preserving insertion order, appending a fresh key at the end
(Python `d[k] = v`). -/
def alSet {α : Type} : List (String × α) → String → α → List (String × α)
  | [], k, v => [(k, v)]
  | (k2, v2) :: rest, k, v =>
      if k2 = k then (k2, v) :: rest else (k2, v2) :: alSet rest k v

/-- `d.get(k)` on a Python dict value. -/
def dGet (v : PyVal) (k : String) : Option PyVal :=
  match v with
  | .dict kvs => alGet kvs k
  | _ => Option.none

/-- Whether `pat` occurs as a contiguous run of `s`. -/
def charsContain (pat : List Char) : List Char → Bool
  | [] => pat.isEmpty
  | c :: rest => pat.isPrefixOf (c :: rest) || charsContain pat rest

/-- Python `pat in s` substring test. -/
def strContains (s pat : String) : Bool :=
  charsContain pat.toList s.toList

/-! ### `src/tools/files.py` — sandboxed file path resolution

`SAFE_ROOT = Path(__file__).parent.parent / "examples" / "sample_repo"`
resolves to `<repo>/src/examples/sample_repo`.  We model absolute paths as
rooted at the repository checkout's parent directory, so the safe root is the
segment list below; the deployment-specific absolute prefix is abstracted
away (it is shared by both sides of the `startswith` comparison, so the
comparison's verdict is unchanged). -/

/-- A POSIX path: absolute flag plus segments, with empty and `.` components
already normalised away (as `pathlib.Path` does on construction). -/
structure PyPath where
  abs : Bool
  segs : List String

/-- Split a character list at slashes. -/
def splitSlashAux (cur : List Char) : List Char → List String
  | [] => [String.mk cur.reverse]
  | c :: rest =>
      if c == '/' then String.mk cur.reverse :: splitSlashAux [] rest
      else splitSlashAux (c :: cur) rest

/-- Parse a path string the way `pathlib.Path` normalises it: a leading
slash marks it absolute, empty and `.` components are dropped. -/
def parsePath (p : String) : PyPath :=
  { abs := p.toList.headD ' ' == '/'
    segs := (splitSlashAux [] p.toList).filter (fun s => s != "" && s != ".") }

/-- `root / p` for `pathlib`: an absolute right operand replaces the root. -/
def joinPath (root p : PyPath) : PyPath :=
  if p.abs then p else { abs := root.abs, segs := root.segs ++ p.segs }

/-- The `..`-elimination of `Path.resolve()` (accumulator holds the resolved
segments reversed; `..` at the filesystem root stays at the root). -/
def resolveSegs : List String → List String → List String
  | acc, [] => acc.reverse
  | acc, ".." :: rest => resolveSegs (acc.drop 1) rest
  | acc, s :: rest => resolveSegs (s :: acc) rest

/-- The safe root for all file operations: `src/examples/sample_repo`
(relative to the repository checkout, see the note above). -/
def SAFE_ROOT : PyPath := { abs := true, segs := ["src", "examples", "sample_repo"] }

/-- Slash-joined segments. -/
def joinSegs : List String → String
  | [] => ""
  | [s] => s
  | s :: s2 :: rest => s ++ "/" ++ joinSegs (s2 :: rest)

/-- `str(path)` for a `pathlib` path. -/
def pathStr (p : PyPath) : String :=
  (if p.abs then "/" else "") ++ joinSegs p.segs

/-- Python `s.startswith(pre)`: character-wise prefix test. -/
def pyStartswith (s pre : String) : Bool :=
  pre.toList.isPrefixOf s.toList

/-- `(SAFE_ROOT / path).resolve()` from `files.read` / `files.write`. -/
def resolveUnderRoot (path : String) : PyPath :=
  { abs := true, segs := resolveSegs [] (joinPath SAFE_ROOT (parsePath path)).segs }

/-- The claim's notion of staying inside the safe root: the resolved target
is the root or lies below it (segment-wise prefix). -/
def insideSafeRoot (segs : List String) : Bool :=
  SAFE_ROOT.segs.isPrefixOf segs

/-- Raised exceptions of the modelled Python code. -/
inductive ToolErr where
  | pathEscape (path : String)
  | keyErr (k : String)
  | other (msg : String)
deriving DecidableEq

/-- `files.read`, up to the point where it touches the filesystem: the check
`str(full_path).startswith(str(SAFE_ROOT))` guards the access, raising
`ValueError` (the spec's `PathEscapeError`) when it fails.  On success it
returns the resolved segments of the file the source would then open. -/
def files_read_target (path : String) : Except ToolErr (List String) :=
  let full := resolveUnderRoot path
  if pyStartswith (pathStr full) (pathStr SAFE_ROOT) then .ok full.segs
  else .error (.pathEscape path)

/-- `files.write`, same resolution and guard as `files.read` (source lines
25-27 duplicate lines 10-12), returning the resolved segments it would then
create parent directories for and open for writing. -/
def files_write_target (path : String) : Except ToolErr (List String) :=
  let full := resolveUnderRoot path
  if pyStartswith (pathStr full) (pathStr SAFE_ROOT) then .ok full.segs
  else .error (.pathEscape path)

/-! ### `src/tools/security.py` -/

/-- `scan_text`: first blocked pattern found as substring wins. -/
def scan_text (text : String) : List String → PyVal
  | [] => .dict [("ok", .bool true)]
  | p :: rest =>
      if strContains text p then
        .dict [("error", .str ("blocked pattern found: " ++ p))]
      else scan_text text rest

/-- `scan_repo`: the stub always reports ok with no issues. -/
def scan_repo : PyVal :=
  .dict [("ok", .bool true), ("issues", .list [])]

/-! ### `src/routing.py` -/

/-- `choose_model` with the default pool: the large model for more than
60000 tokens or for the steps `aggregator` and `react`. -/
def choose_model (tokens_needed : Nat) (step : String) : PyVal :=
  let big := tokens_needed > 60000 || step == "aggregator" || step == "react"
  let model := if big then "gpt-4.1" else "small-fast"
  let cost := if big then "0.015" else "0.0005"
  .dict [("model", .str model), ("tokens", .int (Int.ofNat tokens_needed)),
         ("cost_usd", .float cost), ("step", .str step)]

/-! ### Engine data model (`src/models.py`, in-memory stores of `src/app.py`) -/

/-- One event of a run's journal (`models.Event`; `ts` is the abstracted
monotone timestamp). -/
structure Event where
  run_id : String
  step : String
  type : String
  ts : Nat
  data : PyVal

/-- One run record (`models.Run`). -/
structure RunRec where
  id : String
  graph : String
  inputs : PyVal
  status : String
  created_at : Nat
  parent_run : Option String

/-- One DAG edge (`models.Edge`).  The gating field is called `on` in the
source; `on` is a Lean keyword, so it is `onTypes` here. -/
structure Edge where
  from_node : String
  to_node : String
  onTypes : List String
  parallel : Bool
  join : Option String

/-- A registered graph (`models.Graph`; `policy_name` is never read by the
engine and is omitted). -/
structure Graph where
  name : String
  agents : List String
  dag : List Edge

/-- The engine's mutable stores (`_runs`, `_events`) plus the abstract
clock used for timestamps. -/
structure EngineState where
  runs : List (String × RunRec)
  events : List (String × List Event)
  clock : Nat

/-- The external world behind the tool capabilities: `readFile` models a call
to `files.read` (`.error` = raised exception, `.ok none` = the
`{"error": ...}` not-found dict, `.ok (some c)` = `{"content": c, ...}`),
`writeFile` models `files.write`, and `runTests` the `(passed, output)`
summary of `tests.run` (which catches its own subprocess failures). -/
structure World where
  readFile : String → Except ToolErr (Option String)
  writeFile : String → String → Except ToolErr Unit
  runTests : Bool × String

/-- `engine.emit_event`: stamp, append to the per-run in-memory journal
(creating it on first use); the durable `events.jsonl` append is abstracted. -/
def emit_event (st : EngineState) (run_id step etype : String) (data : PyVal) :
    Event × EngineState :=
  let ev : Event := { run_id := run_id, step := step, type := etype, ts := st.clock, data := data }
  let cur := alGetD st.events run_id []
  (ev, { st with events := alSet st.events run_id (cur ++ [ev]), clock := st.clock + 1 })

/-- The journal of a run as the scheduler reads it (`_events.get(run_id, [])`). -/
def eventsOf (st : EngineState) (run_id : String) : List Event :=
  alGetD st.events run_id []

/-! ### `src/context.py` — context assembler -/

/-- The manifest of a compiled context bundle: per-section token estimates,
the (possibly budget-adjusted) total, and the drop log. -/
structure Manifest where
  scratchpad_tokens : Nat
  repo_tokens : Nat
  policy_tokens : Nat
  total_tokens : Nat
  drops : List String

/-- The manifest as the Python dict recorded in `context_compiled` events. -/
def manifestPy (m : Manifest) : PyVal :=
  .dict [("sections", .dict
            [("scratchpad", .dict [("token_estimate", .int (Int.ofNat m.scratchpad_tokens))]),
             ("repo_snippets", .dict [("token_estimate", .int (Int.ofNat m.repo_tokens))]),
             ("policy_docs", .dict [("token_estimate", .int (Int.ofNat m.policy_tokens))])]),
         ("total_tokens", .int (Int.ofNat m.total_tokens)),
         ("drops", .list (m.drops.map PyVal.str))]

/-- The scratchpad section: a projection of the last five events. -/
def scratchpadVal (events : List Event) : PyVal :=
  let recent := if events.length > 5 then events.drop (events.length - 5) else events
  .list (recent.map (fun e =>
    .dict [("step", .str e.step), ("type", .str e.type), ("data", e.data)]))

/-- The repo-snippets section: `app.py` and `tests/test_app.py` when
readable; each read sits in a `try/except: pass`, so a raising read simply
contributes nothing. -/
def repoSnippetsVal (w : World) : PyVal :=
  let s1 : List (String × PyVal) :=
    match w.readFile "app.py" with
    | .ok (some c) => [("app.py", .str c)]
    | _ => []
  let s2 : List (String × PyVal) :=
    match w.readFile "tests/test_app.py" with
    | .ok (some c) => [("tests/test_app.py", .str c)]
    | _ => []
  .dict (s1 ++ s2)

/-- The fixed policy-docs stub section. -/
def policyDocsVal : PyVal :=
  .dict [("note", .str "policy enforcement active"),
         ("patterns_blocked", .list [.str "eval("])]

/-- The bundle dict returned beside the manifest. -/
def bundlePy (scratchpad repo policy : PyVal) : PyVal :=
  .dict [("scratchpad", scratchpad), ("repo_snippets", repo), ("policy_docs", policy)]

/-- Result of `compile_context`. -/
structure CompileOut where
  bundle : PyVal
  manifest : Manifest

/-- The pre-enforcement token estimates of `compile_context` (source lines
35-41): each section estimates `len(str(section)) // 4` and the initial
total is their sum. -/
def sectionEstimates (w : World) (events : List Event) : Nat × Nat × Nat :=
  ((pyStr (scratchpadVal events)).length / 4,
   (pyStr (repoSnippetsVal w)).length / 4,
   (pyStr policyDocsVal).length / 4)

/-- `context.compile_context`.  The profile registry is modelled by the one
key the function reads, `budget_tokens` (looked up with default 120000, as
both `context_profiles.get(profile_name, {...})` and
`profile.get("budget_tokens", 120000)` default to); `run` and `step` are
accepted and ignored exactly as in the source. -/
def compile_context (w : World) (run : RunRec) (step : String) (profile_name : String)
    (events : List Event) (context_profiles : List (String × Nat)) : CompileOut :=
  let _ := run
  let _ := step
  let budget := alGetD context_profiles profile_name 120000
  let scratchpad := scratchpadVal events
  let repo_snippets := repoSnippetsVal w
  let policy_docs := policyDocsVal
  let sEst := (pyStr scratchpad).length / 4
  let rEst := (pyStr repo_snippets).length / 4
  let pEst := (pyStr policy_docs).length / 4
  let total0 := sEst + rEst + pEst
  if total0 > budget then
    let trim := total0 - budget
    if rEst > trim then
      let rEst2 := rEst - trim
      let max_chars := rEst2 * 4
      let repo_str := pyStr repo_snippets
      if repo_str.length > max_chars then
        { bundle := bundlePy scratchpad (.str (repo_str.take max_chars)) policy_docs
          manifest := { scratchpad_tokens := sEst, repo_tokens := rEst2, policy_tokens := pEst,
                        total_tokens := budget,
                        drops := ["repo_snippets trimmed by " ++
                                  toString (repo_str.length - max_chars) ++ " chars"] } }
      else
        { bundle := bundlePy scratchpad repo_snippets policy_docs
          manifest := { scratchpad_tokens := sEst, repo_tokens := rEst2, policy_tokens := pEst,
                        total_tokens := budget, drops := [] } }
    else
      { bundle := bundlePy scratchpad (.dict []) policy_docs
        manifest := { scratchpad_tokens := sEst, repo_tokens := 0, policy_tokens := pEst,
                      total_tokens := sEst + pEst,
                      drops := ["repo_snippets dropped entirely"] } }
  else
    { bundle := bundlePy scratchpad repo_snippets policy_docs
      manifest := { scratchpad_tokens := sEst, repo_tokens := rEst, policy_tokens := pEst,
                    total_tokens := total0, drops := [] } }

/-! ### `src/engine.py` — node executor -/

/-- Rendering of a raised exception as `str(e)` for the `run_failed` payload. -/
def errStr : ToolErr → String
  | .pathEscape p => "path " ++ p ++ " escapes safe root"
  | .keyErr k => "'" ++ k ++ "'"
  | .other m => m

/-- The aggregator's patch collection: events with `step == "py_fixer"`,
`type == "patch_created"` and truthy `data["success"]` contribute
`data["patch"]`; a qualifying event without a `"patch"` key raises `KeyError`
exactly as `e["data"]["patch"]` does. -/
def aggPatches : List Event → Except ToolErr (List PyVal)
  | [] => .ok []
  | e :: rest =>
      if e.step == "py_fixer" && e.type == "patch_created" &&
         pyTruthy ((dGet e.data "success").getD .pynone) then
        match dGet e.data "patch" with
        | some p => (aggPatches rest).map (fun ps => p :: ps)
        | Option.none => .error (.keyErr "patch")
      else aggPatches rest

/-- The handler dispatch of `engine.run_node` (the `if node == ... / elif`
chain): runs the node-specific body on the post-`context_compiled` state,
emitting the handler's own event, and returns the handler's result mapping.
A raised tool exception leaves through `Except.error` with the state exactly
as it was (every handler's emission happens after its last fallible call). -/
def runHandler (w : World) (run_id node : String) (st : EngineState) :
    Except ToolErr PyVal × EngineState :=
  if node == "planner" then
      let result : PyVal :=
        .dict [("target_files", .list [.str "app.py", .str "tests/test_app.py"]),
               ("hint", .str "test expects 42, app returns 41")]
      let st := (emit_event st run_id node "plan_ready" result).2
      ((.ok result : Except ToolErr PyVal), st)
    else if node == "py_fixer" then
      match w.readFile "app.py" with
      | .error e => (.error e, st)
      | .ok (some content) =>
          let fixed := content.replace "return 41" "return 42"
          match w.writeFile "app.py" fixed with
          | .error e => (.error e, st)
          | .ok _ =>
              let patch : PyVal :=
                .dict [("file", .str "app.py"), ("change", .str "return 41 -> return 42")]
              let result : PyVal := .dict [("patch", patch), ("success", .bool true)]
              let st := (emit_event st run_id node "patch_created" result).2
              ((.ok result : Except ToolErr PyVal), st)
      | .ok Option.none =>
          let result : PyVal := .dict [("error", .str "app.py not found")]
          let st := (emit_event st run_id node "patch_created" result).2
          ((.ok result : Except ToolErr PyVal), st)
    else if node == "fe_fixer" then
      let result : PyVal :=
        .dict [("patch", .pynone), ("message", .str "no frontend changes needed")]
      let st := (emit_event st run_id node "patch_created" result).2
      ((.ok result : Except ToolErr PyVal), st)
    else if node == "test_writer" then
      match w.readFile "tests/test_app.py" with
      | .error e => (.error e, st)
      | .ok (some content) =>
          if !strContains content "assert answer == 42" then
            let content2 := content ++
              "\n\ndef test_answer_type():\n    from app import compute\n    assert isinstance(compute(), int)\n"
            match w.writeFile "tests/test_app.py" content2 with
            | .error e => (.error e, st)
            | .ok _ =>
                let result : PyVal :=
                  .dict [("added", .str "test_answer_type"), ("success", .bool true)]
                let st := (emit_event st run_id node "test_updated" result).2
                ((.ok result : Except ToolErr PyVal), st)
          else
            let result : PyVal := .dict [("message", .str "tests already complete")]
            let st := (emit_event st run_id node "test_updated" result).2
            ((.ok result : Except ToolErr PyVal), st)
      | .ok Option.none =>
          let result : PyVal := .dict [("error", .str "test file not found")]
          let st := (emit_event st run_id node "test_updated" result).2
          ((.ok result : Except ToolErr PyVal), st)
    else if node == "aggregator" then
      match aggPatches (eventsOf st run_id) with
      | .error e => (.error e, st)
      | .ok patches =>
          let sel := match patches with
            | [] => PyVal.pynone
            | p :: _ => p
          let result : PyVal := .dict [("selected_patch", sel)]
          let st := (emit_event st run_id node "patch_selected" result).2
          ((.ok result : Except ToolErr PyVal), st)
    else if node == "tester" then
      let (passed, output) := w.runTests
      let result : PyVal := .dict [("passed", .bool passed), ("output", .str output)]
      let st :=
        (if passed then emit_event st run_id node "tests_passed" result
         else emit_event st run_id node "tests_failed" result).2
      ((.ok result : Except ToolErr PyVal), st)
    else if node == "security" then
      let result := scan_repo
      let st :=
        (if pyTruthy ((dGet result "ok").getD .pynone) then
          emit_event st run_id node "security_ok" result
         else emit_event st run_id node "security_failed" result).2
      ((.ok result : Except ToolErr PyVal), st)
    else if node == "release" then
      match w.readFile "CHANGELOG.md" with
      | .error e => (.error e, st)
      | .ok res =>
          let content := match res with
            | some c => c
            | Option.none => "# Changelog\n\n"
          let content2 := content ++ "\n- " ++ toString st.clock ++
            ": auto-release from run " ++ run_id ++ "\n"
          match w.writeFile "CHANGELOG.md" content2 with
          | .error e => (.error e, st)
          | .ok _ =>
              let result : PyVal := .dict [("released", .bool true)]
              let st := (emit_event st run_id node "release_complete" result).2
              ((.ok result : Except ToolErr PyVal), st)
    else
      let result : PyVal := .dict [("error", .str ("unknown node: " ++ node))]
      let st := (emit_event st run_id node "error" result).2
      ((.ok result : Except ToolErr PyVal), st)

/-- `engine.run_node`: compile context, emit `context_compiled`, dispatch to
the handler (`runHandler`), then emit `node_done` with the handler's result.
The source passes the live `_events.get(run_id, [])` list around; reading the
current journal from the state at each use site is the same semantics.  There
is no `try/except` anywhere in `run_node`, so a raised tool exception leaves
through `Except.error` with the mutations made so far. -/
def run_node (w : World) (context_profiles : List (String × Nat))
    (run_id node : String) (st : EngineState) : Except ToolErr PyVal × EngineState :=
  match alGet st.runs run_id with
  | Option.none => (.error (.keyErr run_id), st)
  | some run =>
    let ctx := compile_context w run node "reviewer-default" (eventsOf st run_id) context_profiles
    let tokens := ctx.manifest.total_tokens
    let model_choice := choose_model tokens node
    let st := (emit_event st run_id node "context_compiled"
        (.dict [("manifest", manifestPy ctx.manifest), ("model", model_choice)])).2
    match runHandler w run_id node st with
    | (.error e, st) => (.error e, st)
    | (.ok result, st) =>
        let st := (emit_event st run_id node "node_done" (.dict [("result", result)])).2
        (.ok result, st)

/-! ### `src/engine.py` — DAG scheduler -/

/-- Python truthiness of `edge.get("join")` (a non-empty string). -/
def joinTruthy : Option String → Bool
  | Option.none => false
  | some s => s != ""

/-- The single pass over `graph["dag"]` building the adjacency map, the
in-degree map and the join groups (insertion-ordered dicts). -/
def buildMapsAux (adj : List (String × List Edge)) (indeg : List (String × Nat))
    (jg : List (String × List String)) : List Edge →
    List (String × List Edge) × List (String × Nat) × List (String × List String)
  | [] => (adj, indeg, jg)
  | e :: rest =>
      let adj := alSet adj e.from_node (alGetD adj e.from_node [] ++ [e])
      let indeg := alSet indeg e.to_node (alGetD indeg e.to_node 0 + 1)
      let indeg := if alHas indeg e.from_node then indeg else alSet indeg e.from_node 0
      let jg := if joinTruthy e.join then
                  alSet jg e.to_node (alGetD jg e.to_node [] ++ [e.from_node])
                else jg
      buildMapsAux adj indeg jg rest

/-- Adjacency, in-degree and join groups of a DAG. -/
def buildMaps (dag : List Edge) :
    List (String × List Edge) × List (String × Nat) × List (String × List String) :=
  buildMapsAux [] [] [] dag

/-- `ready = [n for n in in_degree if in_degree[n] == 0]`. -/
def startNodes (indeg : List (String × Nat)) : List String :=
  (indeg.filter (fun kv => kv.2 == 0)).map (fun kv => kv.1)

/-- The edge guard of the sequential branch: some journal event has the
producing node as its step and a type in the edge's `on` set. -/
def edgeMatches (events : List Event) (from_node : String) (onTypes : List String) : Bool :=
  events.any (fun e => e.step == from_node && onTypes.contains e.type)

/-- `completed.add(node)` for the completed set, modelled as an
insertion-ordered list. -/
def addCompleted (completed : List String) (node : String) : List String :=
  if completed.contains node then completed else completed ++ [node]

/-- Adding a whole parallel batch to the completed set. -/
def addAllCompleted (completed : List String) : List String → List String
  | [] => completed
  | c :: rest => addAllCompleted (addCompleted completed c) rest

/-- The `for node in ready` scan of the execution loop: each ready node whose
first outgoing edge is `parallel` is executed on the spot (unless already
completed) and all its children are queued for the batch; the scan stops at
the first other node, which becomes the sequential choice.  Returns the new
completed set, the queued children and the sequential choice. -/
def scanReady (w : World) (profiles : List (String × Nat)) (run_id : String)
    (adj : List (String × List Edge)) :
    List String → List String → List String → EngineState →
    Except ToolErr (List String × List String × Option String) × EngineState
  | [], completed, children, st => (.ok (completed, children, Option.none), st)
  | node :: rest, completed, children, st =>
      match alGetD adj node [] with
      | [] => (.ok (completed, children, some node), st)
      | e0 :: es =>
        if e0.parallel then
          let a :=
            if completed.contains node then ((.ok PyVal.pynone : Except ToolErr PyVal), st)
            else run_node w profiles run_id node st
          match a.1 with
          | .error err => (.error err, a.2)
          | .ok _ =>
              scanReady w profiles run_id adj rest (addCompleted completed node)
                (children ++ (e0 :: es).map (fun e => e.to_node)) a.2
        else (.ok (completed, children, some node), st)

/-- `await asyncio.gather(*parallel_tasks)`: the handlers contain no `await`,
so the batch runs to completion sequentially in creation order; when one
raises, the remaining tasks still run before the first exception is
propagated to the awaiting scheduler. -/
def gatherRun (w : World) (profiles : List (String × Nat)) (run_id : String) :
    List String → EngineState → Except ToolErr Unit × EngineState
  | [], st => (.ok (), st)
  | c :: rest, st =>
      let a := run_node w profiles run_id c st
      let b := gatherRun w profiles run_id rest a.2
      ((match a.1 with
        | .error e => .error e
        | .ok _ => b.1), b.2)

/-- The join check after a parallel batch: every join node whose sources are
all completed and that is not itself completed is appended to `ready`. -/
def joinCheck (completed : List String) (ready : List String) :
    List (String × List String) → List String
  | [] => ready
  | (join_node, sources) :: rest =>
      let ready :=
        if sources.all (fun s => completed.contains s) && !completed.contains join_node
        then ready ++ [join_node] else ready
      joinCheck completed ready rest

/-- The per-edge enqueueing after a sequential node: gate on `on` against the
journal, then either respect the child's join group or enqueue directly. -/
def processEdges (events : List Event) (node : String) (jg : List (String × List String))
    (completed : List String) : List Edge → List String → List String
  | [], ready => ready
  | e :: rest, ready =>
      let child := e.to_node
      if !e.onTypes.isEmpty && !edgeMatches events node e.onTypes then
        processEdges events node jg completed rest ready
      else
        let ready :=
          match alGet jg child with
          | some sources =>
              if sources.all (fun s => completed.contains s) &&
                 !ready.contains child && !completed.contains child
              then ready ++ [child] else ready
          | Option.none =>
              if !ready.contains child && !completed.contains child
              then ready ++ [child] else ready
        processEdges events node jg completed rest ready

/-- The `while ready:` execution loop, with explicit fuel (the source loop
terminates because every iteration consumes ready work; exhausted fuel exits
like an empty ready set and is never hit by the concrete runs below). -/
def execLoop (w : World) (profiles : List (String × Nat)) (run_id : String)
    (adj : List (String × List Edge)) (jg : List (String × List String)) :
    Nat → List String → List String → EngineState →
    Except ToolErr (List String) × EngineState
  | 0, _, completed, st => (.ok completed, st)
  | Nat.succ fuel, ready, completed, st =>
      if ready.isEmpty then (.ok completed, st)
      else
        let s := scanReady w profiles run_id adj ready completed [] st
        match s.1 with
        | .error e => (.error e, s.2)
        | .ok (completed, children, seqNode) =>
          if !children.isEmpty then
            let g := gatherRun w profiles run_id children s.2
            match g.1 with
            | .error e => (.error e, g.2)
            | .ok _ =>
                let completed := addAllCompleted completed children
                let ready := ready.filter
                  (fun n => !children.contains n && !completed.contains n)
                let ready := joinCheck completed ready jg
                execLoop w profiles run_id adj jg fuel ready completed g.2
          else
            match seqNode with
            | some node =>
                let a :=
                  if completed.contains node then ((.ok PyVal.pynone : Except ToolErr PyVal), s.2)
                  else run_node w profiles run_id node s.2
                match a.1 with
                | .error e => (.error e, a.2)
                | .ok _ =>
                    let completed := addCompleted completed node
                    let ready := ready.erase node
                    let ready := processEdges (eventsOf a.2 run_id) node jg completed
                      (alGetD adj node []) ready
                    execLoop w profiles run_id adj jg fuel ready completed a.2
            | Option.none => (.ok completed, s.2)

/-- `run["status"] = s` (a no-op on a missing run never happens in the source
paths modelled here). -/
def setStatus (st : EngineState) (run_id status : String) : EngineState :=
  match alGet st.runs run_id with
  | some r => { st with runs := alSet st.runs run_id { r with status := status } }
  | Option.none => st

/-- `engine.execute_graph`: mark running, emit `run_started`, build the maps,
seed `ready` with the in-degree-0 nodes, run the loop; on success mark
succeeded and emit `run_completed`, on a raised exception mark failed, emit
`run_failed` and re-raise.  A missing run id raises before anything is
recorded (the source's `except` block then trips over the unbound `run`);
a missing graph name raises inside the `try`.  Returns the completed set the
source records in `run_completed`. -/
def execute_graph (w : World) (graphs : List (String × Graph))
    (profiles : List (String × Nat)) (run_id : String) (fuel : Nat)
    (st : EngineState) : Except ToolErr (List String) × EngineState :=
  match alGet st.runs run_id with
  | Option.none => (.error (.keyErr run_id), st)
  | some run =>
    match alGet graphs run.graph with
    | Option.none =>
        let st := setStatus st run_id "failed"
        let st := (emit_event st run_id "system" "run_failed"
          (.dict [("error", .str (errStr (.keyErr run.graph)))])).2
        (.error (.keyErr run.graph), st)
    | some graph =>
      let st := setStatus st run_id "running"
      let st := (emit_event st run_id "system" "run_started"
        (.dict [("graph", .str graph.name)])).2
      let maps := buildMaps graph.dag
      let ready := startNodes maps.2.1
      let L := execLoop w profiles run_id maps.1 maps.2.2 fuel ready [] st
      match L.1 with
      | .error e =>
          let st := setStatus L.2 run_id "failed"
          let st := (emit_event st run_id "system" "run_failed"
            (.dict [("error", .str (errStr e))])).2
          (.error e, st)
      | .ok completed =>
          let st := setStatus L.2 run_id "succeeded"
          let st := (emit_event st run_id "system" "run_completed"
            (.dict [("completed_nodes", .list (completed.map PyVal.str))])).2
          (.ok completed, st)

/-- `engine.replay_from`: build the child run record under the id
`run_id + "-replay-" + from_step` (overwriting any store entry already under
that id, as the Python dict assignment does), copy the parent's event prefix
strictly before the first event whose step is `from_step` (all events when no
step matches), store it as the child's journal, and execute the graph on the
child. -/
def replay_from (w : World) (graphs : List (String × Graph))
    (profiles : List (String × Nat)) (run_id from_step : String) (fuel : Nat)
    (st : EngineState) : Except ToolErr String × EngineState :=
  match alGet st.runs run_id with
  | Option.none => (.error (.keyErr run_id), st)
  | some original_run =>
    let new_run_id := run_id ++ "-replay-" ++ from_step
    let new_run : RunRec :=
      { id := new_run_id, graph := original_run.graph, inputs := original_run.inputs,
        status := "pending", created_at := st.clock, parent_run := some run_id }
    let st := { st with runs := alSet st.runs new_run_id new_run }
    let original_events := eventsOf st run_id
    let new_events := original_events.takeWhile (fun e => e.step != from_step)
    let st := { st with events := alSet st.events new_run_id new_events }
    let r := execute_graph w graphs profiles new_run_id fuel st
    match r.1 with
    | .error e => (.error e, r.2)
    | .ok _ => (.ok new_run_id, r.2)

/-! ### Store lemmas -/

theorem alGet_alSet_self {α : Type} (m : List (String × α)) (k : String) (v : α) :
    alGet (alSet m k v) k = some v := by
  induction m with
  | nil => simp [alGet, alSet]
  | cons kv rest ih =>
      obtain ⟨k2, v2⟩ := kv
      by_cases h : k2 = k
      · simp [alGet, alSet, h]
      · simp [alGet, alSet, h, ih]

theorem alGet_alSet_ne {α : Type} (m : List (String × α)) (k k' : String) (v : α)
    (h : k' ≠ k) : alGet (alSet m k v) k' = alGet m k' := by
  induction m with
  | nil =>
      have h2 : ¬k = k' := fun hh => h hh.symm
      simp [alGet, alSet, h2]
  | cons kv rest ih =>
      obtain ⟨k2, v2⟩ := kv
      by_cases h2 : k2 = k
      · subst h2
        have h3 : ¬k2 = k' := fun hh => h hh.symm
        simp [alGet, alSet, h3]
      · simp only [alSet, if_neg h2]
        by_cases h3 : k2 = k'
        · simp [alGet, h3]
        · simp [alGet, h3, ih]

theorem alGetD_alSet_self {α : Type} (m : List (String × α)) (k : String) (v d : α) :
    alGetD (alSet m k v) k d = v := by
  simp [alGetD, alGet_alSet_self]

theorem alGetD_alSet_ne {α : Type} (m : List (String × α)) (k k' : String) (v d : α)
    (h : k' ≠ k) : alGetD (alSet m k v) k' d = alGetD m k' d := by
  simp [alGetD, alGet_alSet_ne m k k' v h]

/-! ### Event emission lemmas -/

theorem emit_event_eq (st : EngineState) (rid s t : String) (d : PyVal) :
    emit_event st rid s t d =
      ({ run_id := rid, step := s, type := t, ts := st.clock, data := d },
       { st with
          events := alSet st.events rid (alGetD st.events rid [] ++
            [{ run_id := rid, step := s, type := t, ts := st.clock, data := d }])
          clock := st.clock + 1 }) := rfl

theorem eventsOf_emit_self (st : EngineState) (rid s t : String) (d : PyVal) :
    eventsOf (emit_event st rid s t d).2 rid =
      eventsOf st rid ++ [(emit_event st rid s t d).1] := by
  simp [emit_event, eventsOf, alGetD_alSet_self]

theorem eventsOf_emit_ne (st : EngineState) (rid rid' s t : String) (d : PyVal)
    (h : rid' ≠ rid) :
    eventsOf (emit_event st rid s t d).2 rid' = eventsOf st rid' := by
  simp [emit_event, eventsOf, alGetD_alSet_ne _ _ _ _ _ h]

theorem runs_emit (st : EngineState) (rid s t : String) (d : PyVal) :
    (emit_event st rid s t d).2.runs = st.runs := rfl

/-- A node-done event for `n` is present. -/
def HasDone (evs : List Event) (n : String) : Prop :=
  ∃ e ∈ evs, e.step = n ∧ e.type = "node_done"

theorem runHandler_spec (w : World) (rid node : String) (st : EngineState) :
    (∀ err st2, runHandler w rid node st = (.error err, st2) → st2 = st) ∧
    (∀ r st2, runHandler w rid node st = (.ok r, st2) →
      ∃ ev, eventsOf st2 rid = eventsOf st rid ++ [ev] ∧
        (∀ rid', rid' ≠ rid → eventsOf st2 rid' = eventsOf st rid') ∧
        st2.runs = st.runs ∧ ev.step = node ∧ ev.type ≠ "node_done") := by
  constructor
  · intro err st2 h
    unfold runHandler at h
    repeat' ((try dsimp only at h); split at h)
    all_goals simp_all
  · intro r st2 h
    unfold runHandler at h
    repeat' ((try dsimp only at h); split at h)
    all_goals
      (cases h <;>
       exact ⟨_, eventsOf_emit_self .., fun rid' hne => eventsOf_emit_ne _ _ _ _ _ _ hne,
         runs_emit .., rfl, by simp [emit_event]⟩)

theorem run_node_tail (w : World) (profiles : List (String × Nat)) (rid node : String)
    (st : EngineState) :
    ∃ tail,
      eventsOf (run_node w profiles rid node st).2 rid = eventsOf st rid ++ tail ∧
      (∀ rid', rid' ≠ rid → eventsOf (run_node w profiles rid node st).2 rid' = eventsOf st rid') ∧
      (run_node w profiles rid node st).2.runs = st.runs ∧
      (∀ e ∈ tail, e.step = node) ∧
      (∀ r, (run_node w profiles rid node st).1 = .ok r → HasDone tail node) ∧
      (∀ err, (run_node w profiles rid node st).1 = .error err →
        ∀ e ∈ tail, e.type ≠ "node_done") := by
  unfold run_node
  cases hrun : alGet st.runs rid with
  | none =>
      refine ⟨[], by simp, fun _ _ => rfl, rfl, by simp, ?_, ?_⟩
      · intro r hr; cases hr
      · intro err hr e he; cases he
  | some run =>
      dsimp only
      set dctx : PyVal :=
        .dict [("manifest", manifestPy (compile_context w run node "reviewer-default"
                  (eventsOf st rid) profiles).manifest),
               ("model", choose_model (compile_context w run node "reviewer-default"
                  (eventsOf st rid) profiles).manifest.total_tokens node)] with hdctx
      cases hh : runHandler w rid node (emit_event st rid node "context_compiled" dctx).2 with
      | mk r st2 =>
        have hspec := runHandler_spec w rid node (emit_event st rid node "context_compiled" dctx).2
        cases r with
        | error e =>
            have hst2 := hspec.1 e st2 hh
            subst hst2
            dsimp only
            refine ⟨[(emit_event st rid node "context_compiled" dctx).1], ?_, ?_, ?_, ?_, ?_, ?_⟩
            · rw [eventsOf_emit_self]
            · intro rid' hne; rw [eventsOf_emit_ne _ _ _ _ _ _ hne]
            · rfl
            · intro e' he'; simp at he'; subst he'; rfl
            · intro r hr; cases hr
            · intro err hr e' he'; simp at he'; subst he'; simp [emit_event]
        | ok result =>
            obtain ⟨ev, hev1, hev2, hev3, hev4, hev5⟩ := hspec.2 result st2 hh
            dsimp only
            refine ⟨[(emit_event st rid node "context_compiled" dctx).1, ev,
                     (emit_event st2 rid node "node_done" (.dict [("result", result)])).1],
                    ?_, ?_, ?_, ?_, ?_, ?_⟩
            · rw [eventsOf_emit_self, hev1, eventsOf_emit_self]
              simp
            · intro rid' hne
              rw [eventsOf_emit_ne _ _ _ _ _ _ hne, hev2 _ hne, eventsOf_emit_ne _ _ _ _ _ _ hne]
            · rw [runs_emit, hev3, runs_emit]
            · intro e' he'
              simp at he'
              rcases he' with h | h | h
              · subst h; rfl
              · subst h; exact hev4
              · subst h; rfl
            · intro r hr
              exact ⟨(emit_event st2 rid node "node_done" (.dict [("result", result)])).1,
                     by simp, rfl, rfl⟩
            · intro err hr; cases hr

theorem hasDone_append_left {l l' : List Event} {n : String} (h : HasDone l n) :
    HasDone (l ++ l') n := by
  obtain ⟨e, he, h1, h2⟩ := h
  exact ⟨e, List.mem_append_left _ he, h1, h2⟩

theorem hasDone_append_right {l l' : List Event} {n : String} (h : HasDone l' n) :
    HasDone (l ++ l') n := by
  obtain ⟨e, he, h1, h2⟩ := h
  exact ⟨e, List.mem_append_right _ he, h1, h2⟩

theorem contains_iff_mem {l : List String} {c : String} :
    l.contains c = true ↔ c ∈ l := by
  constructor
  · intro h
    obtain ⟨x, hx, hbeq⟩ := List.contains_iff_exists_mem_beq.mp h
    obtain rfl := eq_of_beq hbeq
    exact hx
  · intro h
    exact List.contains_iff_exists_mem_beq.mpr ⟨c, h, by simp⟩

theorem mem_addCompleted {n c : String} {l : List String} :
    n ∈ addCompleted l c ↔ n ∈ l ∨ n = c := by
  unfold addCompleted
  split
  · rename_i h
    constructor
    · exact Or.inl
    · rintro (h2 | rfl)
      · exact h2
      · exact contains_iff_mem.mp h
  · simp

theorem mem_addAllCompleted {n : String} {cs : List String} :
    ∀ {l : List String}, n ∈ addAllCompleted l cs ↔ n ∈ l ∨ n ∈ cs := by
  induction cs with
  | nil => intro l; simp [addAllCompleted]
  | cons c rest ih =>
      intro l
      rw [addAllCompleted, ih, mem_addCompleted]
      constructor
      · rintro ((h | rfl) | h)
        · exact Or.inl h
        · exact Or.inr (List.mem_cons_self _ _)
        · exact Or.inr (List.mem_cons_of_mem _ h)
      · rintro (h | h)
        · exact Or.inl (Or.inl h)
        · rcases List.mem_cons.mp h with rfl | h2
          · exact Or.inl (Or.inr rfl)
          · exact Or.inr h2

theorem gatherRun_spec (w : World) (profiles : List (String × Nat)) (rid : String)
    (cs : List String) : ∀ st : EngineState,
    ∃ tail,
      eventsOf (gatherRun w profiles rid cs st).2 rid = eventsOf st rid ++ tail ∧
      (∀ rid', rid' ≠ rid → eventsOf (gatherRun w profiles rid cs st).2 rid' = eventsOf st rid') ∧
      (gatherRun w profiles rid cs st).2.runs = st.runs ∧
      ((gatherRun w profiles rid cs st).1 = .ok () → ∀ c ∈ cs, HasDone tail c) := by
  induction cs with
  | nil =>
      intro st
      exact ⟨[], by simp [gatherRun], fun _ _ => rfl, rfl, by simp⟩
  | cons c rest ih =>
      intro st
      obtain ⟨t1, h1, h2, h3, _, h5, h6⟩ := run_node_tail w profiles rid c st
      obtain ⟨t2, g1, g2, g3, g4⟩ := ih (run_node w profiles rid c st).2
      refine ⟨t1 ++ t2, ?_, ?_, ?_, ?_⟩
      · show eventsOf (gatherRun w profiles rid rest (run_node w profiles rid c st).2).2 rid = _
        rw [g1, h1, List.append_assoc]
      · intro rid' hne
        show eventsOf (gatherRun w profiles rid rest (run_node w profiles rid c st).2).2 rid' = _
        rw [g2 _ hne, h2 _ hne]
      · show (gatherRun w profiles rid rest (run_node w profiles rid c st).2).2.runs = _
        rw [g3, h3]
      · intro hok c' hc'
        have hok2 : (match (run_node w profiles rid c st).1 with
            | .error e => (.error e : Except ToolErr Unit)
            | .ok _ => (gatherRun w profiles rid rest (run_node w profiles rid c st).2).1) =
            .ok () := hok
        rcases hr : (run_node w profiles rid c st).1 with e | r
        · rw [hr] at hok2; cases hok2
        · rw [hr] at hok2
          rcases List.mem_cons.mp hc' with rfl | hmem
          · exact hasDone_append_left (h5 _ hr)
          · exact hasDone_append_right (g4 hok2 _ hmem)

theorem scanReady_spec (w : World) (profiles : List (String × Nat)) (rid : String)
    (adj : List (String × List Edge)) :
    ∀ (ready completed children : List String) (st : EngineState),
    ∃ tail,
      eventsOf (scanReady w profiles rid adj ready completed children st).2 rid =
        eventsOf st rid ++ tail ∧
      (∀ rid', rid' ≠ rid →
        eventsOf (scanReady w profiles rid adj ready completed children st).2 rid' =
          eventsOf st rid') ∧
      (scanReady w profiles rid adj ready completed children st).2.runs = st.runs ∧
      (∀ c2 ch2 sq,
        (scanReady w profiles rid adj ready completed children st).1 = .ok (c2, ch2, sq) →
        ∀ n ∈ c2, n ∈ completed ∨ HasDone tail n) := by
  intro ready
  induction ready with
  | nil =>
      intro completed children st
      refine ⟨[], by simp [scanReady], fun _ _ => rfl, rfl, ?_⟩
      intro c2 ch2 sq h n hn
      cases h
      exact Or.inl hn
  | cons node rest ih =>
      intro completed children st
      show ∃ tail, _
      rw [scanReady]
      cases hadj : alGetD adj node [] with
      | nil =>
          refine ⟨[], by simp, fun _ _ => rfl, rfl, ?_⟩
          intro c2 ch2 sq h n hn
          cases h
          exact Or.inl hn
      | cons e0 es =>
          dsimp only
          by_cases hpar : e0.parallel = true
          · rw [if_pos hpar]
            by_cases hmem : completed.contains node = true
            · rw [if_pos hmem]
              dsimp only
              obtain ⟨t2, g1, g2, g3, g4⟩ :=
                ih (addCompleted completed node) (children ++ (e0 :: es).map (fun e => e.to_node)) st
              refine ⟨t2, g1, g2, g3, ?_⟩
              intro c2 ch2 sq h n hn
              rcases g4 c2 ch2 sq h n hn with hin | hdone
              · rcases mem_addCompleted.mp hin with hl | rfl
                · exact Or.inl hl
                · exact Or.inl (contains_iff_mem.mp hmem)
              · exact Or.inr hdone
            · rw [if_neg hmem]
              obtain ⟨t1, h1, h2, h3, _, h5, h6⟩ := run_node_tail w profiles rid node st
              rcases hr : (run_node w profiles rid node st).1 with e | r
              · exact ⟨t1, h1, h2, h3, fun c2 ch2 sq h => by cases h⟩
              · obtain ⟨t2, g1, g2, g3, g4⟩ :=
                  ih (addCompleted completed node) (children ++ (e0 :: es).map (fun e => e.to_node))
                    (run_node w profiles rid node st).2
                refine ⟨t1 ++ t2, ?_, ?_, ?_, ?_⟩
                · rw [g1, h1, List.append_assoc]
                · intro rid' hne; rw [g2 _ hne, h2 _ hne]
                · rw [g3, h3]
                · intro c2 ch2 sq h n hn
                  rcases g4 c2 ch2 sq h n hn with hin | hdone
                  · rcases mem_addCompleted.mp hin with hl | rfl
                    · exact Or.inl hl
                    · exact Or.inr (hasDone_append_left (h5 _ hr))
                  · exact Or.inr (hasDone_append_right hdone)
          · rw [if_neg hpar]
            refine ⟨[], by simp, fun _ _ => rfl, rfl, ?_⟩
            intro c2 ch2 sq h n hn
            cases h
            exact Or.inl hn

theorem execLoop_spec (w : World) (profiles : List (String × Nat)) (rid : String)
    (adj : List (String × List Edge)) (jg : List (String × List String)) :
    ∀ (fuel : Nat) (ready completed : List String) (st : EngineState),
    ∃ tail,
      eventsOf (execLoop w profiles rid adj jg fuel ready completed st).2 rid =
        eventsOf st rid ++ tail ∧
      (∀ rid', rid' ≠ rid →
        eventsOf (execLoop w profiles rid adj jg fuel ready completed st).2 rid' =
          eventsOf st rid') ∧
      (execLoop w profiles rid adj jg fuel ready completed st).2.runs = st.runs ∧
      (∀ c2, (execLoop w profiles rid adj jg fuel ready completed st).1 = .ok c2 →
        ∀ n ∈ c2, n ∈ completed ∨ HasDone tail n) := by
  intro fuel
  induction fuel with
  | zero =>
      intro ready completed st
      refine ⟨[], by simp [execLoop], fun _ _ => rfl, rfl, ?_⟩
      intro c2 h n hn
      cases h
      exact Or.inl hn
  | succ fuel ih =>
      intro ready completed st
      rw [execLoop]
      by_cases hempty : ready.isEmpty = true
      · rw [if_pos hempty]
        refine ⟨[], by simp, fun _ _ => rfl, rfl, ?_⟩
        intro c2 h n hn
        cases h
        exact Or.inl hn
      · rw [if_neg hempty]
        dsimp only
        obtain ⟨t1, s1, s2, s3, s4⟩ := scanReady_spec w profiles rid adj ready completed [] st
        rcases hs : (scanReady w profiles rid adj ready completed [] st).1 with e | trip
        · exact ⟨t1, s1, s2, s3, fun c2 h => by cases h⟩
        · obtain ⟨completed1, children, seqNode⟩ := trip
          dsimp only
          by_cases hch : (!children.isEmpty) = true
          · rw [if_pos hch]
            obtain ⟨t2, g1, g2, g3, g4⟩ :=
              gatherRun_spec w profiles rid children
                (scanReady w profiles rid adj ready completed [] st).2
            rcases hg : (gatherRun w profiles rid children
                (scanReady w profiles rid adj ready completed [] st).2).1 with e | u
            · refine ⟨t1 ++ t2, ?_, ?_, ?_, fun c2 h => by cases h⟩
              · rw [g1, s1, List.append_assoc]
              · intro rid' hne; rw [g2 _ hne, s2 _ hne]
              · rw [g3, s3]
            · obtain ⟨t3, l1, l2, l3, l4⟩ :=
                ih (joinCheck (addAllCompleted completed1 children)
                      (ready.filter (fun n => !children.contains n &&
                        !(addAllCompleted completed1 children).contains n)) jg)
                   (addAllCompleted completed1 children)
                   (gatherRun w profiles rid children
                     (scanReady w profiles rid adj ready completed [] st).2).2
              refine ⟨t1 ++ t2 ++ t3, ?_, ?_, ?_, ?_⟩
              · rw [l1, g1, s1]; simp [List.append_assoc]
              · intro rid' hne; rw [l2 _ hne, g2 _ hne, s2 _ hne]
              · rw [l3, g3, s3]
              · intro c2 h n hn
                rcases l4 c2 h n hn with hin | hdone
                · rcases mem_addAllCompleted.mp hin with hin1 | hinch
                  · rcases s4 completed1 children seqNode (by rw [hs]) n hin1 with hc | hd
                    · exact Or.inl hc
                    · exact Or.inr (hasDone_append_left (hasDone_append_left hd))
                  · have hu : u = () := rfl
                    have := g4 (by rw [hg]) n hinch
                    exact Or.inr (hasDone_append_left (hasDone_append_right this))
                · exact Or.inr (hasDone_append_right hdone)
          · rw [if_neg hch]
            cases seqNode with
            | none =>
                refine ⟨t1, s1, s2, s3, ?_⟩
                intro c2 h n hn
                cases h
                exact s4 _ _ _ (by rw [hs]) n hn
            | some node =>
                dsimp only
                by_cases hmem : completed1.contains node = true
                · rw [if_pos hmem]
                  dsimp only
                  obtain ⟨t3, l1, l2, l3, l4⟩ :=
                    ih (processEdges (eventsOf (scanReady w profiles rid adj ready completed [] st).2 rid)
                          node jg (addCompleted completed1 node) (alGetD adj node [])
                          ((ready.erase node)))
                       (addCompleted completed1 node)
                       (scanReady w profiles rid adj ready completed [] st).2
                  refine ⟨t1 ++ t3, ?_, ?_, ?_, ?_⟩
                  · rw [l1, s1, List.append_assoc]
                  · intro rid' hne; rw [l2 _ hne, s2 _ hne]
                  · rw [l3, s3]
                  · intro c2 h n hn
                    rcases l4 c2 h n hn with hin | hdone
                    · rcases mem_addCompleted.mp hin with hin1 | heq
                      · rcases s4 completed1 children (some node) (by rw [hs]) n hin1 with hc | hd
                        · exact Or.inl hc
                        · exact Or.inr (hasDone_append_left hd)
                      · subst heq
                        rcases s4 completed1 children (some n) (by rw [hs]) n
                            (contains_iff_mem.mp hmem) with hc | hd
                        · exact Or.inl hc
                        · exact Or.inr (hasDone_append_left hd)
                    · exact Or.inr (hasDone_append_right hdone)
                · rw [if_neg hmem]
                  obtain ⟨t2, r1, r2, r3, _, r5, r6⟩ :=
                    run_node_tail w profiles rid node
                      (scanReady w profiles rid adj ready completed [] st).2
                  rcases hr : (run_node w profiles rid node
                      (scanReady w profiles rid adj ready completed [] st).2).1 with e | rr
                  · refine ⟨t1 ++ t2, ?_, ?_, ?_, fun c2 h => by cases h⟩
                    · rw [r1, s1, List.append_assoc]
                    · intro rid' hne; rw [r2 _ hne, s2 _ hne]
                    · rw [r3, s3]
                  · obtain ⟨t3, l1, l2, l3, l4⟩ :=
                      ih (processEdges (eventsOf (run_node w profiles rid node
                              (scanReady w profiles rid adj ready completed [] st).2).2 rid)
                            node jg (addCompleted completed1 node) (alGetD adj node [])
                            ((ready.erase node)))
                         (addCompleted completed1 node)
                         (run_node w profiles rid node
                           (scanReady w profiles rid adj ready completed [] st).2).2
                    refine ⟨t1 ++ t2 ++ t3, ?_, ?_, ?_, ?_⟩
                    · rw [l1, r1, s1]; simp [List.append_assoc]
                    · intro rid' hne; rw [l2 _ hne, r2 _ hne, s2 _ hne]
                    · rw [l3, r3, s3]
                    · intro c2 h n hn
                      rcases l4 c2 h n hn with hin | hdone
                      · rcases mem_addCompleted.mp hin with hin1 | rfl
                        · rcases s4 completed1 children (some node) (by rw [hs]) n hin1 with hc | hd
                          · exact Or.inl hc
                          · exact Or.inr (hasDone_append_left (hasDone_append_left hd))
                        · exact Or.inr (hasDone_append_left
                            (hasDone_append_right (r5 _ hr)))
                      · exact Or.inr (hasDone_append_right hdone)

/-- A run record with its status field blanked: `execute_graph` changes at
most the status of its own run's record. -/
def stripStatus (r : RunRec) : RunRec := { r with status := "" }

theorem eventsOf_setStatus (st : EngineState) (rid s rid' : String) :
    eventsOf (setStatus st rid s) rid' = eventsOf st rid' := by
  unfold setStatus
  split <;> rfl

theorem alGet_setStatus_ne (st : EngineState) (rid s k : String) (h : k ≠ rid) :
    alGet (setStatus st rid s).runs k = alGet st.runs k := by
  unfold setStatus
  split
  · exact alGet_alSet_ne _ _ _ _ h
  · rfl

theorem alGet_setStatus_strip (st : EngineState) (rid s k : String) :
    (alGet (setStatus st rid s).runs k).map stripStatus =
      (alGet st.runs k).map stripStatus := by
  unfold setStatus
  cases hr : alGet st.runs rid with
  | none => rfl
  | some r =>
      by_cases h : k = rid
      · subst h
        rw [alGet_alSet_self, hr]
        rfl
      · rw [alGet_alSet_ne _ _ _ _ h]

theorem execute_graph_spec (w : World) (graphs : List (String × Graph))
    (profiles : List (String × Nat)) (rid : String) (fuel : Nat) (st : EngineState) :
    (eventsOf st rid <+: eventsOf (execute_graph w graphs profiles rid fuel st).2 rid) ∧
    (∀ rid', rid' ≠ rid →
      eventsOf (execute_graph w graphs profiles rid fuel st).2 rid' = eventsOf st rid') ∧
    (∀ k, k ≠ rid →
      alGet (execute_graph w graphs profiles rid fuel st).2.runs k = alGet st.runs k) ∧
    (∀ k, (alGet (execute_graph w graphs profiles rid fuel st).2.runs k).map stripStatus =
      (alGet st.runs k).map stripStatus) := by
  unfold execute_graph
  cases hrun : alGet st.runs rid with
  | none => exact ⟨List.prefix_refl _, fun _ _ => rfl, fun _ _ => rfl, fun _ => rfl⟩
  | some run =>
    dsimp only
    cases hg : alGet graphs run.graph with
    | none =>
        refine ⟨?_, ?_, ?_, ?_⟩
        · rw [eventsOf_emit_self, eventsOf_setStatus]
          exact List.prefix_append _ _
        · intro rid' hne
          rw [eventsOf_emit_ne _ _ _ _ _ _ hne, eventsOf_setStatus]
        · intro k hk
          rw [runs_emit, alGet_setStatus_ne _ _ _ _ hk]
        · intro k
          rw [runs_emit, alGet_setStatus_strip]
    | some graph =>
        dsimp only
        obtain ⟨t1, l1, l2, l3, _⟩ := execLoop_spec w profiles rid
          (buildMaps graph.dag).1 (buildMaps graph.dag).2.2 fuel
          (startNodes (buildMaps graph.dag).2.1) []
          (emit_event (setStatus st rid "running") rid "system" "run_started"
            (.dict [("graph", .str graph.name)])).2
        rcases hl : (execLoop w profiles rid (buildMaps graph.dag).1 (buildMaps graph.dag).2.2
            fuel (startNodes (buildMaps graph.dag).2.1) []
            (emit_event (setStatus st rid "running") rid "system" "run_started"
              (.dict [("graph", .str graph.name)])).2).1 with e | completed
        · dsimp only
          refine ⟨?_, ?_, ?_, ?_⟩
          · rw [eventsOf_emit_self, eventsOf_setStatus, l1, eventsOf_emit_self,
              eventsOf_setStatus]
            exact ((List.prefix_append _ _).trans (List.prefix_append _ _)).trans
              (List.prefix_append _ _)
          · intro rid' hne
            rw [eventsOf_emit_ne _ _ _ _ _ _ hne, eventsOf_setStatus,
              l2 _ hne, eventsOf_emit_ne _ _ _ _ _ _ hne, eventsOf_setStatus]
          · intro k hk
            rw [runs_emit, alGet_setStatus_ne _ _ _ _ hk, l3,
              runs_emit, alGet_setStatus_ne _ _ _ _ hk]
          · intro k
            rw [runs_emit, alGet_setStatus_strip, l3,
              runs_emit, alGet_setStatus_strip]
        · dsimp only
          refine ⟨?_, ?_, ?_, ?_⟩
          · rw [eventsOf_emit_self, eventsOf_setStatus, l1, eventsOf_emit_self,
              eventsOf_setStatus]
            exact ((List.prefix_append _ _).trans (List.prefix_append _ _)).trans
              (List.prefix_append _ _)
          · intro rid' hne
            rw [eventsOf_emit_ne _ _ _ _ _ _ hne, eventsOf_setStatus,
              l2 _ hne, eventsOf_emit_ne _ _ _ _ _ _ hne, eventsOf_setStatus]
          · intro k hk
            rw [runs_emit, alGet_setStatus_ne _ _ _ _ hk, l3,
              runs_emit, alGet_setStatus_ne _ _ _ _ hk]
          · intro k
            rw [runs_emit, alGet_setStatus_strip, l3,
              runs_emit, alGet_setStatus_strip]

theorem alGet_setStatus_self (st : EngineState) (rid s : String) (r : RunRec)
    (h : alGet st.runs rid = some r) :
    alGet (setStatus st rid s).runs rid = some { r with status := s } := by
  unfold setStatus
  rw [h]
  exact alGet_alSet_self _ _ _

theorem execute_graph_error_spec (w : World) (graphs : List (String × Graph))
    (profiles : List (String × Nat)) (rid : String) (fuel : Nat) (st : EngineState)
    (e : ToolErr) (run : RunRec) (hrun : alGet st.runs rid = some run)
    (herr : (execute_graph w graphs profiles rid fuel st).1 = .error e) :
    ((alGet (execute_graph w graphs profiles rid fuel st).2.runs rid).map RunRec.status =
      some "failed") ∧
    ∃ pre ts, eventsOf (execute_graph w graphs profiles rid fuel st).2 rid =
      pre ++ [{ run_id := rid, step := "system", type := "run_failed", ts := ts,
                data := .dict [("error", .str (errStr e))] }] := by
  unfold execute_graph at herr ⊢
  rw [hrun] at herr ⊢
  dsimp only at herr ⊢
  revert herr
  cases hg : alGet graphs run.graph with
  | none =>
      dsimp only
      intro herr
      cases herr
      constructor
      · rw [runs_emit, alGet_setStatus_self st rid "failed" run hrun]
        rfl
      · exact ⟨_, _, by rw [eventsOf_emit_self]; rfl⟩
  | some graph =>
      try dsimp only
      intro herr
      split at herr
      · rename_i e2 heq
        dsimp only at herr
        cases herr
        dsimp only
        obtain ⟨_, _, _, l3, _⟩ := execLoop_spec w profiles rid
          (buildMaps graph.dag).1 (buildMaps graph.dag).2.2 fuel
          (startNodes (buildMaps graph.dag).2.1) []
          (emit_event (setStatus st rid "running") rid "system" "run_started"
            (.dict [("graph", .str graph.name)])).2
        constructor
        · rw [runs_emit]
          have hL : alGet (execLoop w profiles rid (buildMaps graph.dag).1
              (buildMaps graph.dag).2.2 fuel (startNodes (buildMaps graph.dag).2.1) []
              (emit_event (setStatus st rid "running") rid "system" "run_started"
                (.dict [("graph", .str graph.name)])).2).2.runs rid =
              some { run with status := "running" } := by
            rw [l3, runs_emit, alGet_setStatus_self st rid "running" run hrun]
          rw [alGet_setStatus_self _ rid "failed" _ hL]
          rfl
        · exact ⟨_, _, by rw [eventsOf_emit_self]; rfl⟩
      · rename_i completed heq
        dsimp only at herr
        cases herr

theorem run_node_unknown_ok (w : World) (profiles : List (String × Nat)) (rid node : String)
    (st : EngineState) (run : RunRec) (hrun : alGet st.runs rid = some run)
    (h1 : (node == "planner") = false) (h2 : (node == "py_fixer") = false)
    (h3 : (node == "fe_fixer") = false) (h4 : (node == "test_writer") = false)
    (h5 : (node == "aggregator") = false) (h6 : (node == "tester") = false)
    (h7 : (node == "security") = false) (h8 : (node == "release") = false) :
    ∃ st2, run_node w profiles rid node st =
      (.ok (.dict [("error", .str ("unknown node: " ++ node))]), st2) := by
  unfold run_node
  rw [hrun]
  dsimp only
  unfold runHandler
  simp only [h1, h2, h3, h4, h5, h6, h7, h8, Bool.false_eq_true, if_false]
  exact ⟨_, rfl⟩

theorem run_node_security (w : World) (profiles : List (String × Nat)) (rid : String)
    (st : EngineState) (run : RunRec) (hrun : alGet st.runs rid = some run) :
    run_node w profiles rid "security" st =
      (.ok scan_repo,
       (emit_event (emit_event (emit_event st rid "security" "context_compiled"
          (.dict [("manifest", manifestPy (compile_context w run "security" "reviewer-default"
                     (eventsOf st rid) profiles).manifest),
                  ("model", choose_model (compile_context w run "security" "reviewer-default"
                     (eventsOf st rid) profiles).manifest.total_tokens "security")])).2
         rid "security" "security_ok" scan_repo).2
         rid "security" "node_done" (.dict [("result", scan_repo)])).2) ∧
    eventsOf (run_node w profiles rid "security" st).2 rid = eventsOf st rid ++
      [{ run_id := rid, step := "security", type := "context_compiled", ts := st.clock,
         data := .dict [("manifest", manifestPy (compile_context w run "security"
                    "reviewer-default" (eventsOf st rid) profiles).manifest),
                 ("model", choose_model (compile_context w run "security" "reviewer-default"
                    (eventsOf st rid) profiles).manifest.total_tokens "security")] },
       { run_id := rid, step := "security", type := "security_ok", ts := st.clock + 1,
         data := scan_repo },
       { run_id := rid, step := "security", type := "node_done", ts := st.clock + 2,
         data := .dict [("result", scan_repo)] }] := by
  have h1 : run_node w profiles rid "security" st =
      (.ok scan_repo,
       (emit_event (emit_event (emit_event st rid "security" "context_compiled"
          (.dict [("manifest", manifestPy (compile_context w run "security" "reviewer-default"
                     (eventsOf st rid) profiles).manifest),
                  ("model", choose_model (compile_context w run "security" "reviewer-default"
                     (eventsOf st rid) profiles).manifest.total_tokens "security")])).2
         rid "security" "security_ok" scan_repo).2
         rid "security" "node_done" (.dict [("result", scan_repo)])).2) := by
    unfold run_node
    rw [hrun]
    rfl
  refine ⟨h1, ?_⟩
  rw [h1]
  rw [eventsOf_emit_self, eventsOf_emit_self, eventsOf_emit_self]
  simp [emit_event, List.append_assoc]

theorem contains_append_singleton {l : List String} {c child : String} :
    (l ++ [c]).contains child = true ↔ l.contains child = true ∨ child = c := by
  rw [contains_iff_mem, contains_iff_mem]
  simp [List.mem_append]

theorem processEdges_sound (events : List Event) (node : String)
    (jg : List (String × List String)) (completed : List String) :
    ∀ (edges : List Edge) (ready : List String) (child : String),
    (processEdges events node jg completed edges ready).contains child = true →
    ready.contains child = true ∨
      ((∃ e ∈ edges, e.to_node = child ∧
          (e.onTypes = [] ∨ edgeMatches events node e.onTypes = true)) ∧
        (∀ sources, alGet jg child = some sources →
          sources.all (fun s => completed.contains s) = true) ∧
        completed.contains child = false) := by
  intro edges
  induction edges with
  | nil => intro ready child h; exact Or.inl h
  | cons e rest ih =>
      intro ready child h
      rw [processEdges] at h
      by_cases hgate : (!e.onTypes.isEmpty && !edgeMatches events node e.onTypes) = true
      · rw [if_pos hgate] at h
        rcases ih ready child h with hl | hr
        · exact Or.inl hl
        · obtain ⟨⟨e2, he2, hto⟩, hjoin, hcomp⟩ := hr
          exact Or.inr ⟨⟨e2, List.mem_cons_of_mem _ he2, hto⟩, hjoin, hcomp⟩
      · rw [if_neg hgate] at h
        have hfire : e.onTypes = [] ∨ edgeMatches events node e.onTypes = true := by
          rcases Bool.not_eq_true _ ▸ hgate with _
          by_cases hempty : e.onTypes.isEmpty = true
          · exact Or.inl (List.isEmpty_iff.mp hempty)
          · right
            by_cases hm : edgeMatches events node e.onTypes = true
            · exact hm
            · exfalso
              apply hgate
              simp [hempty, hm]
        -- the ready list processEdges recurses with
        rcases halg : alGet jg e.to_node with _ | sources
        all_goals rw [halg] at h
        all_goals dsimp only at h
        · by_cases hcond : (!ready.contains e.to_node && !completed.contains e.to_node) = true
          · rw [if_pos hcond] at h
            rcases ih (ready ++ [e.to_node]) child h with hl | hr
            · rcases contains_append_singleton.mp hl with hl2 | rfl
              · exact Or.inl hl2
              · refine Or.inr ⟨⟨e, List.mem_cons_self _ _, rfl, hfire⟩, ?_, ?_⟩
                · intro sources hs; rw [halg] at hs; cases hs
                · have := (Bool.and_eq_true _ _).mp hcond
                  simpa using this.2
            · obtain ⟨⟨e2, he2, hto⟩, hjoin, hcomp⟩ := hr
              exact Or.inr ⟨⟨e2, List.mem_cons_of_mem _ he2, hto⟩, hjoin, hcomp⟩
          · rw [if_neg hcond] at h
            rcases ih ready child h with hl | hr
            · exact Or.inl hl
            · obtain ⟨⟨e2, he2, hto⟩, hjoin, hcomp⟩ := hr
              exact Or.inr ⟨⟨e2, List.mem_cons_of_mem _ he2, hto⟩, hjoin, hcomp⟩
        · by_cases hcond : (sources.all (fun s => completed.contains s) &&
              !ready.contains e.to_node && !completed.contains e.to_node) = true
          · rw [if_pos hcond] at h
            rcases ih (ready ++ [e.to_node]) child h with hl | hr
            · rcases contains_append_singleton.mp hl with hl2 | rfl
              · exact Or.inl hl2
              · have hc := (Bool.and_eq_true _ _).mp hcond
                have hc2 := (Bool.and_eq_true _ _).mp hc.1
                refine Or.inr ⟨⟨e, List.mem_cons_self _ _, rfl, hfire⟩, ?_, ?_⟩
                · intro sources2 hs
                  rw [halg] at hs
                  cases hs
                  exact hc2.1
                · simpa using hc.2
            · obtain ⟨⟨e2, he2, hto⟩, hjoin, hcomp⟩ := hr
              exact Or.inr ⟨⟨e2, List.mem_cons_of_mem _ he2, hto⟩, hjoin, hcomp⟩
          · rw [if_neg hcond] at h
            rcases ih ready child h with hl | hr
            · exact Or.inl hl
            · obtain ⟨⟨e2, he2, hto⟩, hjoin, hcomp⟩ := hr
              exact Or.inr ⟨⟨e2, List.mem_cons_of_mem _ he2, hto⟩, hjoin, hcomp⟩

theorem joinCheck_sound (completed : List String) :
    ∀ (jg : List (String × List String)) (ready : List String) (j : String),
    (joinCheck completed ready jg).contains j = true →
    ready.contains j = true ∨
      ∃ sources, (j, sources) ∈ jg ∧
        sources.all (fun s => completed.contains s) = true ∧
        completed.contains j = false := by
  intro jg
  induction jg with
  | nil => intro ready j h; exact Or.inl h
  | cons kv rest ih =>
      obtain ⟨join_node, sources⟩ := kv
      intro ready j h
      rw [joinCheck] at h
      by_cases hcond : (sources.all (fun s => completed.contains s) &&
          !completed.contains join_node) = true
      · rw [if_pos hcond] at h
        rcases ih (ready ++ [join_node]) j h with hl | hr
        · rcases contains_append_singleton.mp hl with hl2 | rfl
          · exact Or.inl hl2
          · have hc := (Bool.and_eq_true _ _).mp hcond
            exact Or.inr ⟨sources, List.mem_cons_self _ _, hc.1, by simpa using hc.2⟩
        · obtain ⟨s2, hs2, hall, hcomp⟩ := hr
          exact Or.inr ⟨s2, List.mem_cons_of_mem _ hs2, hall, hcomp⟩
      · rw [if_neg hcond] at h
        rcases ih ready j h with hl | hr
        · exact Or.inl hl
        · obtain ⟨s2, hs2, hall, hcomp⟩ := hr
          exact Or.inr ⟨s2, List.mem_cons_of_mem _ hs2, hall, hcomp⟩

theorem inside_startswith (segs : List String) (h : insideSafeRoot segs = true) :
    pyStartswith (pathStr { abs := true, segs := segs }) (pathStr SAFE_ROOT) = true := by
  unfold insideSafeRoot at h
  obtain ⟨rest, hrest⟩ := List.isPrefixOf_iff_prefix.mp h
  rw [← hrest]
  cases rest with
  | nil => rfl
  | cons r rs => rfl

/-- The four-way outcome of the budget enforcement in `compile_context`,
proved once and reused by the claims about it. -/
theorem compile_context_outcome (w : World) (run : RunRec) (step name : String)
    (events : List Event) (profiles : List (String × Nat)) :
    (¬ (pyStr (scratchpadVal events)).length / 4 + (pyStr (repoSnippetsVal w)).length / 4 +
        (pyStr policyDocsVal).length / 4 > alGetD profiles name 120000 ∧
      (compile_context w run step name events profiles).manifest =
        { scratchpad_tokens := (pyStr (scratchpadVal events)).length / 4,
          repo_tokens := (pyStr (repoSnippetsVal w)).length / 4,
          policy_tokens := (pyStr policyDocsVal).length / 4,
          total_tokens := (pyStr (scratchpadVal events)).length / 4 +
            (pyStr (repoSnippetsVal w)).length / 4 + (pyStr policyDocsVal).length / 4,
          drops := [] }) ∨
    ((pyStr (scratchpadVal events)).length / 4 + (pyStr (repoSnippetsVal w)).length / 4 +
        (pyStr policyDocsVal).length / 4 > alGetD profiles name 120000 ∧
      (pyStr (repoSnippetsVal w)).length / 4 >
        (pyStr (scratchpadVal events)).length / 4 + (pyStr (repoSnippetsVal w)).length / 4 +
          (pyStr policyDocsVal).length / 4 - alGetD profiles name 120000 ∧
      (compile_context w run step name events profiles).manifest =
        { scratchpad_tokens := (pyStr (scratchpadVal events)).length / 4,
          repo_tokens := (pyStr (repoSnippetsVal w)).length / 4 -
            ((pyStr (scratchpadVal events)).length / 4 + (pyStr (repoSnippetsVal w)).length / 4 +
              (pyStr policyDocsVal).length / 4 - alGetD profiles name 120000),
          policy_tokens := (pyStr policyDocsVal).length / 4,
          total_tokens := alGetD profiles name 120000,
          drops := ["repo_snippets trimmed by " ++
            toString ((pyStr (repoSnippetsVal w)).length -
              ((pyStr (repoSnippetsVal w)).length / 4 -
                ((pyStr (scratchpadVal events)).length / 4 +
                  (pyStr (repoSnippetsVal w)).length / 4 +
                  (pyStr policyDocsVal).length / 4 - alGetD profiles name 120000)) * 4) ++
            " chars"] }) ∨
    ((pyStr (scratchpadVal events)).length / 4 + (pyStr (repoSnippetsVal w)).length / 4 +
        (pyStr policyDocsVal).length / 4 > alGetD profiles name 120000 ∧
      ¬ (pyStr (repoSnippetsVal w)).length / 4 >
        (pyStr (scratchpadVal events)).length / 4 + (pyStr (repoSnippetsVal w)).length / 4 +
          (pyStr policyDocsVal).length / 4 - alGetD profiles name 120000 ∧
      (compile_context w run step name events profiles).manifest =
        { scratchpad_tokens := (pyStr (scratchpadVal events)).length / 4,
          repo_tokens := 0,
          policy_tokens := (pyStr policyDocsVal).length / 4,
          total_tokens := (pyStr (scratchpadVal events)).length / 4 +
            (pyStr policyDocsVal).length / 4,
          drops := ["repo_snippets dropped entirely"] }) := by
  unfold compile_context
  dsimp only
  by_cases h1 : (pyStr (scratchpadVal events)).length / 4 + (pyStr (repoSnippetsVal w)).length / 4 +
      (pyStr policyDocsVal).length / 4 > alGetD profiles name 120000
  · rw [if_pos h1]
    by_cases h2 : (pyStr (repoSnippetsVal w)).length / 4 >
        (pyStr (scratchpadVal events)).length / 4 + (pyStr (repoSnippetsVal w)).length / 4 +
          (pyStr policyDocsVal).length / 4 - alGetD profiles name 120000
    · rw [if_pos h2]
      have hlen : ((pyStr (repoSnippetsVal w)).length / 4) * 4 ≤ (pyStr (repoSnippetsVal w)).length :=
        Nat.div_mul_le_self _ _
      have h3 : (pyStr (repoSnippetsVal w)).length >
          ((pyStr (repoSnippetsVal w)).length / 4 -
            ((pyStr (scratchpadVal events)).length / 4 + (pyStr (repoSnippetsVal w)).length / 4 +
              (pyStr policyDocsVal).length / 4 - alGetD profiles name 120000)) * 4 := by
        omega
      rw [if_pos h3]
      exact Or.inr (Or.inl ⟨h1, h2, rfl⟩)
    · rw [if_neg h2]
      exact Or.inr (Or.inr ⟨h1, h2, rfl⟩)
  · rw [if_neg h1]
    exact Or.inl ⟨h1, rfl⟩

/-- One unfolding of `execute_graph` when run and graph resolve. -/
theorem execute_graph_unfold1 (w : World) (graphs : List (String × Graph))
    (profiles : List (String × Nat)) (rid : String) (fuel : Nat) (st : EngineState)
    (run : RunRec) (graph : Graph)
    (hrun : alGet st.runs rid = some run) (hg : alGet graphs run.graph = some graph) :
    execute_graph w graphs profiles rid fuel st =
      (match (execLoop w profiles rid (buildMaps graph.dag).1 (buildMaps graph.dag).2.2 fuel
          (startNodes (buildMaps graph.dag).2.1) []
          (emit_event (setStatus st rid "running") rid "system" "run_started"
            (.dict [("graph", .str graph.name)])).2).1 with
       | .error e => ((.error e : Except ToolErr (List String)),
           (emit_event (setStatus (execLoop w profiles rid (buildMaps graph.dag).1
               (buildMaps graph.dag).2.2 fuel (startNodes (buildMaps graph.dag).2.1) []
               (emit_event (setStatus st rid "running") rid "system" "run_started"
                 (.dict [("graph", .str graph.name)])).2).2 rid "failed")
             rid "system" "run_failed" (.dict [("error", .str (errStr e))])).2)
       | .ok completed => (.ok completed,
           (emit_event (setStatus (execLoop w profiles rid (buildMaps graph.dag).1
               (buildMaps graph.dag).2.2 fuel (startNodes (buildMaps graph.dag).2.1) []
               (emit_event (setStatus st rid "running") rid "system" "run_started"
                 (.dict [("graph", .str graph.name)])).2).2 rid "succeeded")
             rid "system" "run_completed"
             (.dict [("completed_nodes", .list (completed.map PyVal.str))])).2)) := by
  unfold execute_graph
  rw [hrun]
  try dsimp only
  rw [hg]

/-- One step of the execution loop through its sequential branch. -/
theorem execLoop_succ_seq (w : World) (profiles : List (String × Nat)) (rid : String)
    (adj : List (String × List Edge)) (jg : List (String × List String)) (fuel : Nat)
    (ready completed completed1 : List String) (node : String) (st st1 st2 : EngineState)
    (r : PyVal)
    (hne : ready.isEmpty = false)
    (hscan : scanReady w profiles rid adj ready completed [] st =
      (.ok (completed1, [], some node), st1))
    (hmem : completed1.contains node = false)
    (hrn : run_node w profiles rid node st1 = (.ok r, st2)) :
    execLoop w profiles rid adj jg (fuel + 1) ready completed st =
      execLoop w profiles rid adj jg fuel
        (processEdges (eventsOf st2 rid) node jg (addCompleted completed1 node)
          (alGetD adj node []) (ready.erase node))
        (addCompleted completed1 node) st2 := by
  rw [execLoop]
  rw [if_neg (by simp [hne])]
  try dsimp only
  rw [hscan]
  try dsimp only
  rw [if_neg (by decide : ¬((!([] : List String).isEmpty) = true))]
  try dsimp only
  rw [hmem]
  rw [if_neg (by decide : ¬(false = true))]
  rw [hrn]

/-! ### Concrete fixtures used by the claim theorems -/

/-- A world whose repository has no readable files and whose tests pass. -/
def wNone : World :=
  { readFile := fun _ => .ok Option.none, writeFile := fun _ _ => .ok (),
    runTests := (true, "") }

/-- A world whose file reads raise a non-infrastructural exception. -/
def wBoom : World :=
  { readFile := fun _ => .error (.other "disk failure"), writeFile := fun _ _ => .ok (),
    runTests := (true, "") }

/-- The default context-profile registry of `app.py`. -/
def profilesDefault : List (String × Nat) := [("reviewer-default", 120000)]

/-- A freshly created run record. -/
def runStub (id graph : String) : RunRec :=
  { id := id, graph := graph, inputs := .dict [], status := "pending",
    created_at := 0, parent_run := Option.none }

/-- A graph with one parallel edge whose gate can never match. -/
def gGate : Graph :=
  { name := "g-gate", agents := ["p", "c"],
    dag := [{ from_node := "p", to_node := "c", onTypes := ["never"], parallel := true,
              join := Option.none }] }

/-- Fresh state holding one pending run on `gGate`. -/
def stGate : EngineState :=
  { runs := [("r", runStub "r" "g-gate")], events := [("r", [])], clock := 0 }

/-- A graph where the join node `j` is also the child of a parallel edge. -/
def gJoin : Graph :=
  { name := "g-join", agents := ["a", "j", "c"],
    dag := [{ from_node := "a", to_node := "j", onTypes := [], parallel := true,
              join := Option.none },
            { from_node := "c", to_node := "j", onTypes := [], parallel := false,
              join := some "all" }] }

/-- Fresh state holding one pending run on `gJoin`. -/
def stJoin : EngineState :=
  { runs := [("r", runStub "r" "g-join")], events := [("r", [])], clock := 0 }

/-- A two-node chain used for the replay scenarios. -/
def gChain : Graph :=
  { name := "g2", agents := ["alpha", "beta"],
    dag := [{ from_node := "alpha", to_node := "beta", onTypes := [], parallel := false,
              join := Option.none }] }

/-- Fresh state holding one pending run on `gChain`. -/
def stChain : EngineState :=
  { runs := [("r", runStub "r" "g2")], events := [("r", [])], clock := 0 }

/-- The state after the parent `gChain` run has executed to completion. -/
def stChainDone : EngineState :=
  (execute_graph wNone [("g2", gChain)] profilesDefault "r" 20 stChain).2

/-- State with one run whose journal is empty, used for handler counterexamples. -/
def stSimple : EngineState :=
  { runs := [("r", runStub "r" "g")], events := [("r", [])], clock := 0 }

/-- Ceiling division by four, as the spec words the token heuristic:
tokens are estimated as the ceiling of a quarter of the serialized length.
Modelled from the spec for comparison with the source's floor division. -/
def specCeilTokens (n : Nat) : Nat := (n + 3) / 4

/-! ### C1 — budget law of `compile_context` -/

/-- C1 counterexample: with a registered profile of `budget_tokens = 1` and an
empty journal and repository, `compile_context` drops `repo_snippets`
entirely and reports `total_tokens = 17 > 1`, violating the claimed bound
`manifest.total_tokens ≤ profile.budget_tokens`. -/
theorem C1_counterexample :
    1 < (compile_context wNone (runStub "r" "g") "planner" "tiny" []
          [("tiny", 1)]).manifest.total_tokens ∧
    (compile_context wNone (runStub "r" "g") "planner" "tiny" []
        [("tiny", 1)]).manifest.drops = ["repo_snippets dropped entirely"] ∧
    (compile_context wNone (runStub "r" "g") "planner" "tiny" []
        [("tiny", 1)]).manifest.total_tokens = 17 := by
  exact ⟨by decide, rfl, rfl⟩

/-- Helper fact: the trim drop message never equals the full-drop message. -/
theorem trim_msg_ne (n : Nat) :
    ("repo_snippets trimmed by " ++ toString n ++ " chars") ≠
      "repo_snippets dropped entirely" := by
  intro h
  have h2 := congrArg (fun s : String => s.toList.take 15) h
  have hL : (fun s : String => s.toList.take 15)
      ("repo_snippets trimmed by " ++ toString n ++ " chars") = "repo_snippets t".toList := rfl
  have hR : (fun s : String => s.toList.take 15)
      ("repo_snippets dropped entirely") = "repo_snippets d".toList := rfl
  rw [hL, hR] at h2
  exact absurd h2 (by decide)

/-- C1 (amended): `manifest.total_tokens ≤ profile.budget_tokens` holds except
when `repo_snippets` is dropped entirely; in the drop branch the recomputed
total is `scratchpad + policy_docs`, which the drop condition forces to be at
least the budget (and which can exceed it, per the counterexample); `drops` is
non-empty exactly when the initial total exceeded the budget. -/
theorem C1_budget_amended (w : World) (run : RunRec) (step profile_name : String)
    (events : List Event) (context_profiles : List (String × Nat)) :
    ((compile_context w run step profile_name events context_profiles).manifest.drops.contains
        "repo_snippets dropped entirely" = false →
      (compile_context w run step profile_name events context_profiles).manifest.total_tokens ≤
        alGetD context_profiles profile_name 120000) ∧
    ((compile_context w run step profile_name events context_profiles).manifest.drops.contains
        "repo_snippets dropped entirely" = true →
      (compile_context w run step profile_name events context_profiles).manifest.total_tokens =
        (pyStr (scratchpadVal events)).length / 4 + (pyStr policyDocsVal).length / 4 ∧
      alGetD context_profiles profile_name 120000 ≤
        (compile_context w run step profile_name events context_profiles).manifest.total_tokens) ∧
    ((compile_context w run step profile_name events context_profiles).manifest.drops ≠ [] ↔
      alGetD context_profiles profile_name 120000 <
        (pyStr (scratchpadVal events)).length / 4 + (pyStr (repoSnippetsVal w)).length / 4 +
          (pyStr policyDocsVal).length / 4) := by
  rcases compile_context_outcome w run step profile_name events context_profiles with
    ⟨hc, hm⟩ | ⟨hc, hc2, hm⟩ | ⟨hc, hc2, hm⟩
  · rw [hm]
    refine ⟨fun _ => ?_, fun hcon => ?_, ?_⟩
    · simpa using Nat.not_lt.mp hc
    · cases hcon
    · simp only []
      constructor
      · intro hne; exact absurd rfl hne
      · intro hlt; exact absurd hlt hc
  · rw [hm]
    refine ⟨fun _ => le_refl _, fun hcon => ?_, ?_⟩
    · exfalso
      have := contains_iff_mem.mp hcon
      simp only [List.mem_singleton] at this
      exact trim_msg_ne _ this.symm
    · constructor
      · intro _; exact hc
      · intro _; simp
  · rw [hm]
    refine ⟨fun hcon => ?_, fun _ => ⟨rfl, ?_⟩, ?_⟩
    · exfalso
      have : ("repo_snippets dropped entirely" :
          String) ∈ ["repo_snippets dropped entirely"] := List.mem_singleton.mpr rfl
      rw [← contains_iff_mem] at this
      rw [hcon] at this
      cases this
    · show alGetD context_profiles profile_name 120000 ≤
        (pyStr (scratchpadVal events)).length / 4 + (pyStr policyDocsVal).length / 4
      omega
    · constructor
      · intro _; exact hc
      · intro _; simp

/-! ### C8 — token estimation heuristic -/

/-- C8 counterexample: for the empty scratchpad (serialized as the two
characters of an empty Python list) the source's estimate is
`2 // 4 = 0`, not the claimed ceiling `⌈2 / 4⌉ = 1`. -/
theorem C8_counterexample :
    (compile_context wNone (runStub "r" "g") "planner" "reviewer-default" []
        profilesDefault).manifest.scratchpad_tokens = 0 ∧
    specCeilTokens (pyStr (scratchpadVal [])).length = 1 ∧
    (compile_context wNone (runStub "r" "g") "planner" "reviewer-default" []
        profilesDefault).manifest.scratchpad_tokens ≠
      specCeilTokens (pyStr (scratchpadVal [])).length := by
  exact ⟨rfl, rfl, by decide⟩

/-- C8 (amended): each section's token estimate is the floor
`len(str(section)) // 4` (not the ceiling), and the manifest's
`total_tokens` always equals the sum of the three recorded section
estimates; before any enforcement (no drops) the repo estimate is also the
floor of its serialized length. -/
theorem C8_tokens_amended (w : World) (run : RunRec) (step profile_name : String)
    (events : List Event) (context_profiles : List (String × Nat)) :
    (compile_context w run step profile_name events context_profiles).manifest.scratchpad_tokens =
      (pyStr (scratchpadVal events)).length / 4 ∧
    (compile_context w run step profile_name events context_profiles).manifest.policy_tokens =
      (pyStr policyDocsVal).length / 4 ∧
    ((compile_context w run step profile_name events context_profiles).manifest.drops = [] →
      (compile_context w run step profile_name events context_profiles).manifest.repo_tokens =
        (pyStr (repoSnippetsVal w)).length / 4) ∧
    (compile_context w run step profile_name events context_profiles).manifest.total_tokens =
      (compile_context w run step profile_name events context_profiles).manifest.scratchpad_tokens +
      (compile_context w run step profile_name events context_profiles).manifest.repo_tokens +
      (compile_context w run step profile_name events context_profiles).manifest.policy_tokens := by
  rcases compile_context_outcome w run step profile_name events context_profiles with
    ⟨hc, hm⟩ | ⟨hc, hc2, hm⟩ | ⟨hc, hc2, hm⟩
  · rw [hm]
    exact ⟨rfl, rfl, fun _ => rfl, rfl⟩
  · rw [hm]
    refine ⟨rfl, rfl, fun hcon => absurd hcon (by simp), ?_⟩
    show alGetD context_profiles profile_name 120000 =
      (pyStr (scratchpadVal events)).length / 4 +
        ((pyStr (repoSnippetsVal w)).length / 4 -
          ((pyStr (scratchpadVal events)).length / 4 + (pyStr (repoSnippetsVal w)).length / 4 +
            (pyStr policyDocsVal).length / 4 - alGetD context_profiles profile_name 120000)) +
        (pyStr policyDocsVal).length / 4
    omega
  · rw [hm]
    exact ⟨rfl, rfl, fun hcon => absurd hcon (by simp), rfl⟩

/-! ### C3 — path safety of the file capability -/

/-- C3 counterexample: `../sample_repo_x/secret` resolves to the sibling
directory `src/examples/sample_repo_x`, which is outside the safe root, yet
the `startswith` string comparison accepts it (the sibling's name extends the
safe root's name textually), so both `read` and `write` proceed instead of
raising `PathEscapeError`. -/
theorem C3_counterexample :
    files_read_target "../sample_repo_x/secret" =
      .ok ["src", "examples", "sample_repo_x", "secret"] ∧
    files_write_target "../sample_repo_x/secret" =
      .ok ["src", "examples", "sample_repo_x", "secret"] ∧
    insideSafeRoot ["src", "examples", "sample_repo_x", "secret"] = false := by
  exact ⟨rfl, rfl, rfl⟩

/-- C3 (amended): resolution and the guard are shared by `read` and `write`;
every path whose resolved target is inside the safe root is accepted, a
raised error is always the path-escape error and implies the resolved target
is genuinely outside the safe root, and the only file ever touched is the
resolved target — but acceptance is decided by the textual `startswith`
comparison, which (per the counterexample) also admits sibling directories
whose names extend the safe root's last component. -/
theorem C3_path_amended (path : String) :
    (insideSafeRoot (resolveUnderRoot path).segs = true →
      files_read_target path = .ok (resolveUnderRoot path).segs ∧
      files_write_target path = .ok (resolveUnderRoot path).segs) ∧
    (∀ e, files_read_target path = .error e →
      e = .pathEscape path ∧ insideSafeRoot (resolveUnderRoot path).segs = false) ∧
    (∀ t, files_read_target path = .ok t → t = (resolveUnderRoot path).segs) ∧
    files_write_target path = files_read_target path := by
  refine ⟨?_, ?_, ?_, rfl⟩
  · intro h
    have hs : pyStartswith (pathStr (resolveUnderRoot path)) (pathStr SAFE_ROOT) = true :=
      inside_startswith _ h
    unfold files_read_target files_write_target
    rw [if_pos hs]
    exact ⟨rfl, rfl⟩
  · intro e he
    unfold files_read_target at he
    by_cases hs : pyStartswith (pathStr (resolveUnderRoot path)) (pathStr SAFE_ROOT) = true
    · rw [if_pos hs] at he
      cases he
    · rw [if_neg hs] at he
      refine ⟨by cases he; rfl, ?_⟩
      by_cases hin : insideSafeRoot (resolveUnderRoot path).segs = true
      · exact absurd (inside_startswith _ hin) hs
      · exact Bool.not_eq_true _ ▸ Bool.of_not_eq_true hin
  · intro t ht
    unfold files_read_target at ht
    by_cases hs : pyStartswith (pathStr (resolveUnderRoot path)) (pathStr SAFE_ROOT) = true
    · rw [if_pos hs] at ht
      cases ht
      rfl
    · rw [if_neg hs] at ht
      cases ht

/-! ### C4 — edge gating by `on` -/

/-- C4 counterexample: the graph `gGate` has a single parallel edge
`p → c` gated on the event type `never`; no event of that type is ever
emitted, yet the run completes with both `p` and `c` executed — the
parallel branch dispatches children without consulting the gate. -/
theorem C4_counterexample :
    (execute_graph wNone [("g-gate", gGate)] profilesDefault "r" 20 stGate).1 =
      .ok ["p", "c"] ∧
    edgeMatches
      (eventsOf (execute_graph wNone [("g-gate", gGate)] profilesDefault "r" 20 stGate).2 "r")
      "p" ["never"] = false ∧
    (eventsOf (execute_graph wNone [("g-gate", gGate)] profilesDefault "r" 20 stGate).2 "r").any
      (fun e => e.step == "c" && e.type == "node_done") = true := by
  exact ⟨rfl, rfl, rfl⟩

/-- C4 (amended): gating by `on` is honoured only on the sequential path —
a child enqueued by `processEdges` always owes its place to an edge whose
`on` set is empty or matched by the journal — whereas a ready node whose
first outgoing edge is parallel has every child of its edge list queued for
immediate execution with no gate consultation at all. -/
theorem C4_gate_amended :
    (∀ (events : List Event) (node : String) (jg : List (String × List String))
        (completed : List String) (edges : List Edge) (child : String),
      (processEdges events node jg completed edges []).contains child = true →
      ∃ e ∈ edges, e.to_node = child ∧
        (e.onTypes = [] ∨ edgeMatches events node e.onTypes = true)) ∧
    (∀ (w : World) (profiles : List (String × Nat)) (rid node : String)
        (adj : List (String × List Edge)) (e0 : Edge) (es : List Edge)
        (rest completed children : List String) (st st1 : EngineState) (r : PyVal),
      alGetD adj node [] = e0 :: es → e0.parallel = true →
      completed.contains node = false →
      run_node w profiles rid node st = (.ok r, st1) →
      scanReady w profiles rid adj (node :: rest) completed children st =
        scanReady w profiles rid adj rest (addCompleted completed node)
          (children ++ (e0 :: es).map (fun e => e.to_node)) st1) := by
  constructor
  · intro events node jg completed edges child h
    rcases processEdges_sound events node jg completed edges [] child h with hl | hr
    · cases hl
    · exact hr.1
  · intro w profiles rid node adj e0 es rest completed children st st1 r
      halg hpar hcomp hrn
    rw [scanReady, halg]
    dsimp only
    rw [if_pos hpar]
    rw [if_neg (by rw [hcomp]; decide)]
    rw [hrn]

/-! ### C5 — join barriers -/

/-- C5 counterexample: in `gJoin` the node `j` is the target of a
`join == "all"` edge from `c`, so its declared source set is `["c"]` — but
`j` is also the child of a parallel edge from `a`, and the run dispatches it
as a parallel child: its `node_done` appears in the journal strictly before
`c`'s, i.e. `j` executes while its declared source `c` is still incomplete. -/
theorem C5_counterexample :
    (buildMaps gJoin.dag).2.2 = [("j", ["c"])] ∧
    (eventsOf (execute_graph wNone [("g-join", gJoin)] profilesDefault "r" 20 stJoin).2 "r").any
      (fun e => e.step == "j" && e.type == "node_done") = true ∧
    (eventsOf (execute_graph wNone [("g-join", gJoin)] profilesDefault "r" 20 stJoin).2 "r").findIdx
        (fun e => e.step == "j" && e.type == "node_done") <
      (eventsOf (execute_graph wNone [("g-join", gJoin)] profilesDefault "r" 20 stJoin).2 "r").findIdx
        (fun e => e.step == "c" && e.type == "node_done") := by
  exact ⟨rfl, rfl, by decide⟩

/-- C5 (amended): the join barrier is honoured by the two enqueueing paths —
`joinCheck` admits a join node only when all its declared sources are in the
completed set, and `processEdges` enqueues a child with a join group only
when all its sources are completed — but a join node reached as the child of
a parallel edge is handed to `gatherRun`, which executes every child
unconditionally: the batch head runs to `node_done` with no join
consultation at all. -/
theorem C5_join_amended :
    (∀ (completed ready : List String) (jg : List (String × List String)) (j : String),
      (joinCheck completed ready jg).contains j = true →
      ready.contains j = true ∨
        ∃ sources, (j, sources) ∈ jg ∧
          sources.all (fun s => completed.contains s) = true ∧
          completed.contains j = false) ∧
    (∀ (events : List Event) (node : String) (jg : List (String × List String))
        (completed : List String) (edges : List Edge) (child : String) (sources : List String),
      (processEdges events node jg completed edges []).contains child = true →
      alGet jg child = some sources →
      sources.all (fun s => completed.contains s) = true) ∧
    (∀ (w : World) (profiles : List (String × Nat)) (rid c : String)
        (rest : List String) (st st1 : EngineState) (r : PyVal),
      run_node w profiles rid c st = (.ok r, st1) →
      gatherRun w profiles rid (c :: rest) st = gatherRun w profiles rid rest st1 ∧
      HasDone (eventsOf st1 rid) c) := by
  refine ⟨?_, ?_, ?_⟩
  · intro completed ready jg j h
    exact joinCheck_sound completed jg ready j h
  · intro events node jg completed edges child sources h halg
    rcases processEdges_sound events node jg completed edges [] child h with hl | hr
    · cases hl
    · exact hr.2.1 sources halg
  · intro w profiles rid c rest st st1 r hrn
    constructor
    · rw [gatherRun, hrn]
    · obtain ⟨tail, h1, _, _, _, hok, _⟩ := run_node_tail w profiles rid c st
      rw [hrn] at h1 hok
      dsimp only at h1 hok
      rw [h1]
      exact hasDone_append_right (hok r rfl)

/-! ### C7 — handler exception handling -/

/-- C7 counterexample: a non-infrastructural handler exception (a failing
file read inside the `py_fixer` body) propagates out of `run_node` as an
error; no node-specific error event is recorded for it, and `node_done` is
NOT emitted — the journal keeps only the `context_compiled` event. -/
theorem C7_counterexample :
    (run_node wBoom profilesDefault "r" "py_fixer" stSimple).1 =
      .error (.other "disk failure") ∧
    (eventsOf (run_node wBoom profilesDefault "r" "py_fixer" stSimple).2 "r").map
      (fun e => e.type) = ["context_compiled"] ∧
    (eventsOf (run_node wBoom profilesDefault "r" "py_fixer" stSimple).2 "r").any
      (fun e => e.type == "node_done") = false := by
  exact ⟨rfl, rfl, rfl⟩

/-- C7 (amended): there is no `try/except` in `run_node` — every handler
exception propagates out of it, run records untouched, and the events
appended before the raise never include a `node_done` for the node; the
catch lives one level up, in `execute_graph`, which marks the run failed
and records the stringified exception in a terminal `run_failed` event. -/
theorem C7_error_amended :
    (∀ (w : World) (profiles : List (String × Nat)) (rid node : String)
        (st : EngineState) (err : ToolErr),
      (run_node w profiles rid node st).1 = .error err →
      (run_node w profiles rid node st).2.runs = st.runs ∧
      ∃ tail, eventsOf (run_node w profiles rid node st).2 rid = eventsOf st rid ++ tail ∧
        ∀ e ∈ tail, e.type ≠ "node_done") ∧
    (∀ (w : World) (graphs : List (String × Graph)) (profiles : List (String × Nat))
        (rid : String) (fuel : Nat) (st : EngineState) (e : ToolErr) (run : RunRec),
      alGet st.runs rid = some run →
      (execute_graph w graphs profiles rid fuel st).1 = .error e →
      (alGet (execute_graph w graphs profiles rid fuel st).2.runs rid).map RunRec.status =
        some "failed" ∧
      ∃ pre ts, eventsOf (execute_graph w graphs profiles rid fuel st).2 rid =
        pre ++ [{ run_id := rid, step := "system", type := "run_failed", ts := ts,
                  data := .dict [("error", .str (errStr e))] }]) := by
  constructor
  · intro w profiles rid node st err herr
    obtain ⟨tail, h1, _, h3, _, _, hbad⟩ := run_node_tail w profiles rid node st
    exact ⟨h3, tail, h1, hbad err herr⟩
  · intro w graphs profiles rid fuel st e run hrun herr
    exact execute_graph_error_spec w graphs profiles rid fuel st e run hrun herr

/-! ### C10 — the security stub -/

/-- C10: `scan_repo` is the constant ok dictionary with an empty issues
list; whenever the security node runs, it appends exactly the event types
`context_compiled, security_ok, node_done` to the journal (so
`security_failed` is never emitted by it), returns the scan result, and any
`security → release` edge gated on `security_ok` matches the journal from
that point on, whatever is appended later. -/
theorem C10_security :
    scan_repo = .dict [("ok", .bool true), ("issues", .list [])] ∧
    (∀ (w : World) (profiles : List (String × Nat)) (rid : String)
        (st : EngineState) (run : RunRec), alGet st.runs rid = some run →
      (eventsOf (run_node w profiles rid "security" st).2 rid).map (fun e => e.type) =
        (eventsOf st rid).map (fun e => e.type) ++
          ["context_compiled", "security_ok", "node_done"] ∧
      (run_node w profiles rid "security" st).1 = .ok scan_repo ∧
      ∀ extra, edgeMatches (eventsOf (run_node w profiles rid "security" st).2 rid ++ extra)
        "security" ["security_ok"] = true) := by
  refine ⟨rfl, ?_⟩
  intro w profiles rid st run hrun
  obtain ⟨heq, hev⟩ := run_node_security w profiles rid st run hrun
  refine ⟨?_, ?_, ?_⟩
  · rw [hev]; simp
  · rw [heq]
  · intro extra
    rw [hev]
    unfold edgeMatches
    rw [List.any_eq_true]
    refine ⟨{ run_id := rid, step := "security", type := "security_ok", ts := st.clock + 1,
              data := scan_repo }, ?_, by simp⟩
    rw [List.append_assoc]
    apply List.mem_append_right
    simp

/-! ### C9 — replay child identity -/

/-- C9 counterexample: replaying run `r` from step `beta` twice yields the
same child id `r-replay-beta` both times, and a run under that id already
exists in the store when the second replay starts — the deterministic id is
not fresh, and the second replay overwrites the first child's record and
journal. -/
theorem C9_counterexample :
    (replay_from wNone [("g2", gChain)] profilesDefault "r" "beta" 20 stChainDone).1 =
      .ok "r-replay-beta" ∧
    alHas (replay_from wNone [("g2", gChain)] profilesDefault "r" "beta" 20
        stChainDone).2.runs "r-replay-beta" = true ∧
    (replay_from wNone [("g2", gChain)] profilesDefault "r" "beta" 20
        (replay_from wNone [("g2", gChain)] profilesDefault "r" "beta" 20 stChainDone).2).1 =
      .ok "r-replay-beta" := by
  exact ⟨rfl, rfl, rfl⟩

theorem replay_from_ok_id (w : World) (graphs : List (String × Graph))
    (profiles : List (String × Nat)) (rid from_step : String) (fuel : Nat)
    (st : EngineState) (run : RunRec) (cid : String)
    (hrun : alGet st.runs rid = some run)
    (hok : (replay_from w graphs profiles rid from_step fuel st).1 = .ok cid) :
    cid = rid ++ "-replay-" ++ from_step := by
  unfold replay_from at hok
  rw [hrun] at hok
  dsimp only at hok
  split at hok
  · rename_i e heq
    cases hok
  · rename_i comp heq
    dsimp only at hok
    cases hok
    rfl

theorem replay_from_state (w : World) (graphs : List (String × Graph))
    (profiles : List (String × Nat)) (rid from_step : String) (fuel : Nat)
    (st : EngineState) (run : RunRec) (hrun : alGet st.runs rid = some run) :
    (replay_from w graphs profiles rid from_step fuel st).2 =
      (execute_graph w graphs profiles (rid ++ "-replay-" ++ from_step) fuel
        { st with
          runs := alSet st.runs (rid ++ "-replay-" ++ from_step)
            { id := rid ++ "-replay-" ++ from_step, graph := run.graph, inputs := run.inputs,
              status := "pending", created_at := st.clock, parent_run := some rid },
          events := alSet st.events (rid ++ "-replay-" ++ from_step)
            ((eventsOf st rid).takeWhile (fun e => e.step != from_step)) }).2 := by
  unfold replay_from
  rw [hrun]
  dsimp only
  rw [show eventsOf
      { st with
          runs := alSet st.runs (rid ++ "-replay-" ++ from_step)
                    { id := rid ++ "-replay-" ++ from_step, graph := run.graph,
                      inputs := run.inputs, status := "pending", created_at := st.clock,
                      parent_run := some rid } } rid =
      eventsOf st rid from rfl]
  split <;> rfl

/-- C9 (amended): a successful `replay_from` returns the deterministic child
id `run_id + "-replay-" + from_step` (not a fresh one — the store entry under
that id, if any, is overwritten); the child record carries `parent_run` set
to the parent's id and the parent's graph, and the child journal extends the
copied parent prefix (the events strictly before the first event whose step
is `from_step`). -/
theorem C9_replay_amended (w : World) (graphs : List (String × Graph))
    (profiles : List (String × Nat)) (rid from_step : String) (fuel : Nat)
    (st : EngineState) (run : RunRec) (cid : String)
    (hrun : alGet st.runs rid = some run)
    (hok : (replay_from w graphs profiles rid from_step fuel st).1 = .ok cid) :
    cid = rid ++ "-replay-" ++ from_step ∧
    (alGet (replay_from w graphs profiles rid from_step fuel st).2.runs cid).map
      (fun r => r.parent_run) = some (some rid) ∧
    (alGet (replay_from w graphs profiles rid from_step fuel st).2.runs cid).map
      (fun r => r.graph) = some run.graph ∧
    (eventsOf st rid).takeWhile (fun e => e.step != from_step) <+:
      eventsOf (replay_from w graphs profiles rid from_step fuel st).2 cid := by
  obtain rfl : cid = rid ++ "-replay-" ++ from_step :=
    replay_from_ok_id w graphs profiles rid from_step fuel st run cid hrun hok
  rw [replay_from_state w graphs profiles rid from_step fuel st run hrun]
  obtain ⟨hpre, _, _, hstrip⟩ := execute_graph_spec w graphs profiles
    (rid ++ "-replay-" ++ from_step) fuel
    { st with
      runs := alSet st.runs (rid ++ "-replay-" ++ from_step)
        { id := rid ++ "-replay-" ++ from_step, graph := run.graph, inputs := run.inputs,
          status := "pending", created_at := st.clock, parent_run := some rid },
      events := alSet st.events (rid ++ "-replay-" ++ from_step)
        ((eventsOf st rid).takeWhile (fun e => e.step != from_step)) }
  refine ⟨rfl, ?_, ?_, ?_⟩
  · have hmap : ∀ (o : Option RunRec),
        o.map (fun r => r.parent_run) = (o.map stripStatus).map (fun r => r.parent_run) := by
      intro o; cases o <;> simp [stripStatus]
    rw [hmap, hstrip (rid ++ "-replay-" ++ from_step), ← hmap]
    dsimp only
    rw [alGet_alSet_self]
    rfl
  · have hmap : ∀ (o : Option RunRec),
        o.map (fun r => r.graph) = (o.map stripStatus).map (fun r => r.graph) := by
      intro o; cases o <;> simp [stripStatus]
    rw [hmap, hstrip (rid ++ "-replay-" ++ from_step), ← hmap]
    dsimp only
    rw [alGet_alSet_self]
    rfl
  · have hev : eventsOf
        { st with
          runs := alSet st.runs (rid ++ "-replay-" ++ from_step)
            { id := rid ++ "-replay-" ++ from_step, graph := run.graph, inputs := run.inputs,
              status := "pending", created_at := st.clock, parent_run := some rid },
          events := alSet st.events (rid ++ "-replay-" ++ from_step)
            ((eventsOf st rid).takeWhile (fun e => e.step != from_step)) }
        (rid ++ "-replay-" ++ from_step) =
        (eventsOf st rid).takeWhile (fun e => e.step != from_step) := by
      unfold eventsOf
      dsimp only
      rw [alGetD_alSet_self]
    rw [hev] at hpre
    exact hpre

/-- Witness for the amended C9 statement at the concrete replay of the
completed chain run. -/
theorem C9_replay_amended_witness :
    "r-replay-beta" = "r" ++ "-replay-" ++ "beta" ∧
    (alGet (replay_from wNone [("g2", gChain)] profilesDefault "r" "beta" 20
        stChainDone).2.runs "r-replay-beta").map (fun r => r.parent_run) = some (some "r") ∧
    (alGet (replay_from wNone [("g2", gChain)] profilesDefault "r" "beta" 20
        stChainDone).2.runs "r-replay-beta").map (fun r => r.graph) = some "g2" ∧
    (eventsOf stChainDone "r").takeWhile (fun e => e.step != "beta") <+:
      eventsOf (replay_from wNone [("g2", gChain)] profilesDefault "r" "beta" 20
        stChainDone).2 "r-replay-beta" :=
  C9_replay_amended wNone [("g2", gChain)] profilesDefault "r" "beta" 20 stChainDone
    { id := "r", graph := "g2", inputs := PyVal.dict [], status := "succeeded",
      created_at := 0, parent_run := Option.none } "r-replay-beta" (by rfl) (by rfl)

/-! ### C2 — replay scheduling -/

/-- C2 counterexample: the copied prefix of the replay of `r` from `beta`
holds exactly one `node_done` for `alpha`, yet the child journal ends up
with two — the scheduler re-executed `alpha` despite its `node_done` in the
prefix; replaying from a step absent from the parent (`nosuch`) copies the
full history and still re-executes `alpha` (two `node_done` again) instead
of executing nothing. -/
theorem C2_counterexample :
    ((eventsOf stChainDone "r").takeWhile (fun e => e.step != "beta")).countP
      (fun e => e.step == "alpha" && e.type == "node_done") = 1 ∧
    (eventsOf (replay_from wNone [("g2", gChain)] profilesDefault "r" "beta" 20
        stChainDone).2 "r-replay-beta").countP
      (fun e => e.step == "alpha" && e.type == "node_done") = 2 ∧
    ((eventsOf stChainDone "r").takeWhile (fun e => e.step != "nosuch")).countP
      (fun e => e.step == "alpha" && e.type == "node_done") = 1 ∧
    (eventsOf (replay_from wNone [("g2", gChain)] profilesDefault "r" "nosuch" 20
        stChainDone).2 "r-replay-nosuch").countP
      (fun e => e.step == "alpha" && e.type == "node_done") = 2 := by
  exact ⟨rfl, rfl, rfl, rfl⟩

/-- The result of `replay_from` expressed through the graph execution on the
child state. -/
theorem replay_from_result (w : World) (graphs : List (String × Graph))
    (profiles : List (String × Nat)) (rid from_step : String) (fuel : Nat)
    (st : EngineState) (run : RunRec) (hrun : alGet st.runs rid = some run) :
    (replay_from w graphs profiles rid from_step fuel st).1 =
      (match (execute_graph w graphs profiles (rid ++ "-replay-" ++ from_step) fuel
        { st with
          runs := alSet st.runs (rid ++ "-replay-" ++ from_step)
            { id := rid ++ "-replay-" ++ from_step, graph := run.graph, inputs := run.inputs,
              status := "pending", created_at := st.clock, parent_run := some rid },
          events := alSet st.events (rid ++ "-replay-" ++ from_step)
            ((eventsOf st rid).takeWhile (fun e => e.step != from_step)) }).1 with
      | .error e => .error e
      | .ok _ => .ok (rid ++ "-replay-" ++ from_step)) := by
  unfold replay_from
  rw [hrun]
  dsimp only
  rw [show eventsOf
      { st with
          runs := alSet st.runs (rid ++ "-replay-" ++ from_step)
                    { id := rid ++ "-replay-" ++ from_step, graph := run.graph,
                      inputs := run.inputs, status := "pending", created_at := st.clock,
                      parent_run := some rid } } rid =
      eventsOf st rid from rfl]
  split <;> rfl

/-- C2 (amended): whatever the parent journal holds, the replay child run on
the chain graph re-executes every node — the scheduler derives no completed
set from the copied prefix: the child journal is the copied prefix followed
by a re-execution tail containing `node_done` for both `alpha` and `beta`,
and the replay succeeds with the deterministic child id. -/
theorem C2_replay_amended (w : World) (profiles : List (String × Nat))
    (rid from_step : String) (fuel : Nat) (st : EngineState) (run : RunRec)
    (hrun : alGet st.runs rid = some run) (hgraph : run.graph = "g2") :
    ∃ tail,
      eventsOf (replay_from w [("g2", gChain)] profiles rid from_step (fuel + 1 + 1) st).2
          (rid ++ "-replay-" ++ from_step) =
        (eventsOf st rid).takeWhile (fun e => e.step != from_step) ++ tail ∧
      HasDone tail "alpha" ∧ HasDone tail "beta" ∧
      (replay_from w [("g2", gChain)] profiles rid from_step (fuel + 1 + 1) st).1 =
        .ok (rid ++ "-replay-" ++ from_step) := by
  have hSTrun : alGet ({ st with
        runs := alSet st.runs (rid ++ "-replay-" ++ from_step)
                  { id := rid ++ "-replay-" ++ from_step, graph := run.graph,
                    inputs := run.inputs, status := "pending", created_at := st.clock,
                    parent_run := some rid },
        events := alSet st.events (rid ++ "-replay-" ++ from_step)
                    ((eventsOf st rid).takeWhile (fun e => e.step != from_step)) }).runs (rid ++ "-replay-" ++ from_step) =
      some ({ id := rid ++ "-replay-" ++ from_step, graph := run.graph, inputs := run.inputs, status := "pending", created_at := st.clock, parent_run := some rid }) := alGet_alSet_self _ _ _
  have hg : alGet [("g2", gChain)] ({ id := rid ++ "-replay-" ++ from_step, graph := run.graph, inputs := run.inputs, status := "pending", created_at := st.clock, parent_run := some rid } : RunRec).graph = some gChain := by
    show alGet [("g2", gChain)] run.graph = some gChain
    rw [hgraph]
    rfl
  have hEG := execute_graph_unfold1 w [("g2", gChain)] profiles
    (rid ++ "-replay-" ++ from_step) (fuel + 1 + 1)
    ({ st with
        runs := alSet st.runs (rid ++ "-replay-" ++ from_step)
                  { id := rid ++ "-replay-" ++ from_step, graph := run.graph,
                    inputs := run.inputs, status := "pending", created_at := st.clock,
                    parent_run := some rid },
        events := alSet st.events (rid ++ "-replay-" ++ from_step)
                    ((eventsOf st rid).takeWhile (fun e => e.step != from_step)) })
    ({ id := rid ++ "-replay-" ++ from_step, graph := run.graph, inputs := run.inputs, status := "pending", created_at := st.clock, parent_run := some rid }) gChain hSTrun hg
  have hrec0 : alGet ((emit_event (setStatus
      { st with
        runs := alSet st.runs (rid ++ "-replay-" ++ from_step)
                  { id := rid ++ "-replay-" ++ from_step, graph := run.graph,
                    inputs := run.inputs, status := "pending", created_at := st.clock,
                    parent_run := some rid },
        events := alSet st.events (rid ++ "-replay-" ++ from_step)
                    ((eventsOf st rid).takeWhile (fun e => e.step != from_step)) }
      (rid ++ "-replay-" ++ from_step) "running")
      (rid ++ "-replay-" ++ from_step) "system" "run_started"
      (.dict [("graph", .str gChain.name)])).2).runs (rid ++ "-replay-" ++ from_step) =
      some ({ id := rid ++ "-replay-" ++ from_step, graph := run.graph, inputs := run.inputs, status := "running", created_at := st.clock, parent_run := some rid }) := by
    rw [runs_emit]
    exact alGet_setStatus_self _ _ _ _ hSTrun
  obtain ⟨st1, hrn1⟩ := run_node_unknown_ok w profiles (rid ++ "-replay-" ++ from_step) "alpha"
    ((emit_event (setStatus
      { st with
        runs := alSet st.runs (rid ++ "-replay-" ++ from_step)
                  { id := rid ++ "-replay-" ++ from_step, graph := run.graph,
                    inputs := run.inputs, status := "pending", created_at := st.clock,
                    parent_run := some rid },
        events := alSet st.events (rid ++ "-replay-" ++ from_step)
                    ((eventsOf st rid).takeWhile (fun e => e.step != from_step)) }
      (rid ++ "-replay-" ++ from_step) "running")
      (rid ++ "-replay-" ++ from_step) "system" "run_started"
      (.dict [("graph", .str gChain.name)])).2)
    ({ id := rid ++ "-replay-" ++ from_step, graph := run.graph, inputs := run.inputs, status := "running", created_at := st.clock, parent_run := some rid }) hrec0 rfl rfl rfl rfl rfl rfl rfl rfl
  obtain ⟨tail1, ht1, _, htr1, _, hok1, _⟩ := run_node_tail w profiles
    (rid ++ "-replay-" ++ from_step) "alpha"
    ((emit_event (setStatus
      { st with
        runs := alSet st.runs (rid ++ "-replay-" ++ from_step)
                  { id := rid ++ "-replay-" ++ from_step, graph := run.graph,
                    inputs := run.inputs, status := "pending", created_at := st.clock,
                    parent_run := some rid },
        events := alSet st.events (rid ++ "-replay-" ++ from_step)
                    ((eventsOf st rid).takeWhile (fun e => e.step != from_step)) }
      (rid ++ "-replay-" ++ from_step) "running")
      (rid ++ "-replay-" ++ from_step) "system" "run_started"
      (.dict [("graph", .str gChain.name)])).2)
  rw [hrn1] at ht1 htr1 hok1
  dsimp only at ht1 htr1 hok1
  have hd1 : HasDone tail1 "alpha" := hok1 _ rfl
  have hL1 := execLoop_succ_seq w profiles (rid ++ "-replay-" ++ from_step)
    ((buildMaps gChain.dag).1) ((buildMaps gChain.dag).2.2) (fuel + 1) (startNodes (buildMaps gChain.dag).2.1) [] [] "alpha"
    ((emit_event (setStatus
      { st with
        runs := alSet st.runs (rid ++ "-replay-" ++ from_step)
                  { id := rid ++ "-replay-" ++ from_step, graph := run.graph,
                    inputs := run.inputs, status := "pending", created_at := st.clock,
                    parent_run := some rid },
        events := alSet st.events (rid ++ "-replay-" ++ from_step)
                    ((eventsOf st rid).takeWhile (fun e => e.step != from_step)) }
      (rid ++ "-replay-" ++ from_step) "running")
      (rid ++ "-replay-" ++ from_step) "system" "run_started"
      (.dict [("graph", .str gChain.name)])).2)
    ((emit_event (setStatus
      { st with
        runs := alSet st.runs (rid ++ "-replay-" ++ from_step)
                  { id := rid ++ "-replay-" ++ from_step, graph := run.graph,
                    inputs := run.inputs, status := "pending", created_at := st.clock,
                    parent_run := some rid },
        events := alSet st.events (rid ++ "-replay-" ++ from_step)
                    ((eventsOf st rid).takeWhile (fun e => e.step != from_step)) }
      (rid ++ "-replay-" ++ from_step) "running")
      (rid ++ "-replay-" ++ from_step) "system" "run_started"
      (.dict [("graph", .str gChain.name)])).2) st1
    (.dict [("error", .str ("unknown node: " ++ "alpha"))]) rfl rfl rfl hrn1
  rw [show processEdges (eventsOf st1 (rid ++ "-replay-" ++ from_step)) "alpha" ((buildMaps gChain.dag).2.2)
      (addCompleted [] "alpha") (alGetD ((buildMaps gChain.dag).1) "alpha" [])
      ((startNodes (buildMaps gChain.dag).2.1).erase "alpha") = ["beta"] from rfl] at hL1
  rw [show addCompleted ([] : List String) "alpha" = ["alpha"] from rfl] at hL1
  have hrec1 : alGet st1.runs (rid ++ "-replay-" ++ from_step) =
      some ({ id := rid ++ "-replay-" ++ from_step, graph := run.graph, inputs := run.inputs, status := "running", created_at := st.clock, parent_run := some rid }) := by
    rw [htr1]
    exact hrec0
  obtain ⟨st2, hrn2⟩ := run_node_unknown_ok w profiles (rid ++ "-replay-" ++ from_step) "beta"
    st1 ({ id := rid ++ "-replay-" ++ from_step, graph := run.graph, inputs := run.inputs, status := "running", created_at := st.clock, parent_run := some rid }) hrec1 rfl rfl rfl rfl rfl rfl rfl rfl
  obtain ⟨tail2, ht2, _, htr2, _, hok2, _⟩ := run_node_tail w profiles
    (rid ++ "-replay-" ++ from_step) "beta" st1
  rw [hrn2] at ht2 htr2 hok2
  dsimp only at ht2 htr2 hok2
  have hd2 : HasDone tail2 "beta" := hok2 _ rfl
  have hL2 := execLoop_succ_seq w profiles (rid ++ "-replay-" ++ from_step)
    ((buildMaps gChain.dag).1) ((buildMaps gChain.dag).2.2) fuel ["beta"] ["alpha"] ["alpha"] "beta" st1 st1 st2
    (.dict [("error", .str ("unknown node: " ++ "beta"))]) rfl rfl rfl hrn2
  rw [show processEdges (eventsOf st2 (rid ++ "-replay-" ++ from_step)) "beta" ((buildMaps gChain.dag).2.2)
      (addCompleted ["alpha"] "beta") (alGetD ((buildMaps gChain.dag).1) "beta" [])
      ((["beta"]).erase "beta") = [] from rfl] at hL2
  have hstop : execLoop w profiles (rid ++ "-replay-" ++ from_step) ((buildMaps gChain.dag).1) ((buildMaps gChain.dag).2.2) fuel []
      (addCompleted ["alpha"] "beta") st2 = (.ok (addCompleted ["alpha"] "beta"), st2) := by
    cases fuel with
    | zero => rfl
    | succ f =>
        rw [execLoop]
        rfl
  have hloop : execLoop w profiles (rid ++ "-replay-" ++ from_step) ((buildMaps gChain.dag).1) ((buildMaps gChain.dag).2.2)
      (fuel + 1 + 1) (startNodes (buildMaps gChain.dag).2.1) []
      ((emit_event (setStatus
      { st with
        runs := alSet st.runs (rid ++ "-replay-" ++ from_step)
                  { id := rid ++ "-replay-" ++ from_step, graph := run.graph,
                    inputs := run.inputs, status := "pending", created_at := st.clock,
                    parent_run := some rid },
        events := alSet st.events (rid ++ "-replay-" ++ from_step)
                    ((eventsOf st rid).takeWhile (fun e => e.step != from_step)) }
      (rid ++ "-replay-" ++ from_step) "running")
      (rid ++ "-replay-" ++ from_step) "system" "run_started"
      (.dict [("graph", .str gChain.name)])).2) = (.ok (addCompleted ["alpha"] "beta"), st2) := by
    rw [hL1, hL2, hstop]
  rw [hloop] at hEG
  dsimp only at hEG
  have hres : (replay_from w [("g2", gChain)] profiles rid from_step (fuel + 1 + 1) st).1 =
      .ok (rid ++ "-replay-" ++ from_step) := by
    rw [replay_from_result w [("g2", gChain)] profiles rid from_step (fuel + 1 + 1) st run hrun,
      hEG]
  have hstate : (replay_from w [("g2", gChain)] profiles rid from_step (fuel + 1 + 1) st).2 =
      (emit_event (setStatus st2 (rid ++ "-replay-" ++ from_step) "succeeded")
        (rid ++ "-replay-" ++ from_step) "system" "run_completed"
        (.dict [("completed_nodes", .list ((addCompleted ["alpha"] "beta").map PyVal.str))])).2 := by
    rw [replay_from_state w [("g2", gChain)] profiles rid from_step (fuel + 1 + 1) st run hrun,
      hEG]
  have hevST : eventsOf
      ({ st with
        runs := alSet st.runs (rid ++ "-replay-" ++ from_step)
                  { id := rid ++ "-replay-" ++ from_step, graph := run.graph,
                    inputs := run.inputs, status := "pending", created_at := st.clock,
                    parent_run := some rid },
        events := alSet st.events (rid ++ "-replay-" ++ from_step)
                    ((eventsOf st rid).takeWhile (fun e => e.step != from_step)) })
      (rid ++ "-replay-" ++ from_step) =
      (eventsOf st rid).takeWhile (fun e => e.step != from_step) := by
    unfold eventsOf
    dsimp only
    rw [alGetD_alSet_self]
  have hev0 : eventsOf
      ((emit_event (setStatus
      { st with
        runs := alSet st.runs (rid ++ "-replay-" ++ from_step)
                  { id := rid ++ "-replay-" ++ from_step, graph := run.graph,
                    inputs := run.inputs, status := "pending", created_at := st.clock,
                    parent_run := some rid },
        events := alSet st.events (rid ++ "-replay-" ++ from_step)
                    ((eventsOf st rid).takeWhile (fun e => e.step != from_step)) }
      (rid ++ "-replay-" ++ from_step) "running")
      (rid ++ "-replay-" ++ from_step) "system" "run_started"
      (.dict [("graph", .str gChain.name)])).2)
      (rid ++ "-replay-" ++ from_step) =
      (eventsOf st rid).takeWhile (fun e => e.step != from_step) ++
        [(emit_event (setStatus
      { st with
        runs := alSet st.runs (rid ++ "-replay-" ++ from_step)
                  { id := rid ++ "-replay-" ++ from_step, graph := run.graph,
                    inputs := run.inputs, status := "pending", created_at := st.clock,
                    parent_run := some rid },
        events := alSet st.events (rid ++ "-replay-" ++ from_step)
                    ((eventsOf st rid).takeWhile (fun e => e.step != from_step)) }
      (rid ++ "-replay-" ++ from_step) "running")
      (rid ++ "-replay-" ++ from_step) "system" "run_started"
      (.dict [("graph", .str gChain.name)])).1] := by
    rw [eventsOf_emit_self, eventsOf_setStatus, hevST]
  refine ⟨[(emit_event (setStatus
      { st with
        runs := alSet st.runs (rid ++ "-replay-" ++ from_step)
                  { id := rid ++ "-replay-" ++ from_step, graph := run.graph,
                    inputs := run.inputs, status := "pending", created_at := st.clock,
                    parent_run := some rid },
        events := alSet st.events (rid ++ "-replay-" ++ from_step)
                    ((eventsOf st rid).takeWhile (fun e => e.step != from_step)) }
      (rid ++ "-replay-" ++ from_step) "running")
      (rid ++ "-replay-" ++ from_step) "system" "run_started"
      (.dict [("graph", .str gChain.name)])).1] ++ (tail1 ++ (tail2 ++
      [(emit_event (setStatus st2 (rid ++ "-replay-" ++ from_step) "succeeded")
      (rid ++ "-replay-" ++ from_step) "system" "run_completed"
      (.dict [("completed_nodes", .list ((addCompleted ["alpha"] "beta").map PyVal.str))])).1])), ?_, ?_, ?_, hres⟩
  · rw [hstate, eventsOf_emit_self, eventsOf_setStatus, ht2, ht1, hev0]
    simp [List.append_assoc]
  · exact hasDone_append_right (hasDone_append_left hd1)
  · exact hasDone_append_right (hasDone_append_right (hasDone_append_left hd2))

/-- Witness for the amended C2 statement: replaying the completed chain run
from `beta` re-executes both nodes. -/
theorem C2_replay_amended_witness :
    ∃ tail,
      eventsOf (replay_from wNone [("g2", gChain)] profilesDefault "r" "beta" (0 + 1 + 1)
          stChainDone).2 ("r" ++ "-replay-" ++ "beta") =
        (eventsOf stChainDone "r").takeWhile (fun e => e.step != "beta") ++ tail ∧
      HasDone tail "alpha" ∧ HasDone tail "beta" ∧
      (replay_from wNone [("g2", gChain)] profilesDefault "r" "beta" (0 + 1 + 1)
          stChainDone).1 = .ok ("r" ++ "-replay-" ++ "beta") :=
  C2_replay_amended wNone profilesDefault "r" "beta" 0 stChainDone
    { id := "r", graph := "g2", inputs := PyVal.dict [], status := "succeeded",
      created_at := 0, parent_run := Option.none } (by rfl) rfl

/-! ### C6 — the copied prefix law -/

/-- C6: the replay child's journal decomposes as the copied parent prefix
(the events strictly before the first event whose step is `from_step`)
followed by a re-execution tail; taking `k` — the length of that prefix,
i.e. the index of the first parent event with step `from_step` — the first
`k` events of the child journal equal the first `k` events of the parent
journal; and the replay leaves the parent's own journal unchanged. -/
theorem C6_prefix_law :
    (∀ (w : World) (graphs : List (String × Graph)) (profiles : List (String × Nat))
        (rid from_step : String) (fuel : Nat) (st : EngineState) (run : RunRec),
      alGet st.runs rid = some run →
      ∃ tail,
        eventsOf (replay_from w graphs profiles rid from_step fuel st).2
            (rid ++ "-replay-" ++ from_step) =
          (eventsOf st rid).takeWhile (fun e => e.step != from_step) ++ tail) ∧
    (∀ (w : World) (graphs : List (String × Graph)) (profiles : List (String × Nat))
        (rid from_step : String) (fuel : Nat) (st : EngineState) (run : RunRec),
      alGet st.runs rid = some run →
      (eventsOf (replay_from w graphs profiles rid from_step fuel st).2
          (rid ++ "-replay-" ++ from_step)).take
          ((eventsOf st rid).takeWhile (fun e => e.step != from_step)).length =
        (eventsOf st rid).take
          ((eventsOf st rid).takeWhile (fun e => e.step != from_step)).length) ∧
    (∀ (w : World) (graphs : List (String × Graph)) (profiles : List (String × Nat))
        (rid from_step : String) (fuel : Nat) (st : EngineState),
      eventsOf (replay_from w graphs profiles rid from_step fuel st).2 rid =
        eventsOf st rid) := by
  have hne : ∀ (rid from_step : String), rid ≠ rid ++ "-replay-" ++ from_step := by
    intro rid from_step heq
    have hlen := congrArg String.length heq
    rw [String.length_append, String.length_append] at hlen
    have h8 : ("-replay-" : String).length = 8 := rfl
    rw [h8] at hlen
    omega
  have hpre : ∀ (w : World) (graphs : List (String × Graph)) (profiles : List (String × Nat))
      (rid from_step : String) (fuel : Nat) (st : EngineState) (run : RunRec),
      alGet st.runs rid = some run →
      (eventsOf st rid).takeWhile (fun e => e.step != from_step) <+:
        eventsOf (replay_from w graphs profiles rid from_step fuel st).2
          (rid ++ "-replay-" ++ from_step) := by
    intro w graphs profiles rid from_step fuel st run hrun
    rw [replay_from_state w graphs profiles rid from_step fuel st run hrun]
    obtain ⟨hp, _, _, _⟩ := execute_graph_spec w graphs profiles
      (rid ++ "-replay-" ++ from_step) fuel
      { st with
        runs := alSet st.runs (rid ++ "-replay-" ++ from_step)
                  { id := rid ++ "-replay-" ++ from_step, graph := run.graph,
                    inputs := run.inputs, status := "pending", created_at := st.clock,
                    parent_run := some rid },
        events := alSet st.events (rid ++ "-replay-" ++ from_step)
                    ((eventsOf st rid).takeWhile (fun e => e.step != from_step)) }
    have hevST : eventsOf
        { st with
        runs := alSet st.runs (rid ++ "-replay-" ++ from_step)
                  { id := rid ++ "-replay-" ++ from_step, graph := run.graph,
                    inputs := run.inputs, status := "pending", created_at := st.clock,
                    parent_run := some rid },
        events := alSet st.events (rid ++ "-replay-" ++ from_step)
                    ((eventsOf st rid).takeWhile (fun e => e.step != from_step)) }
        (rid ++ "-replay-" ++ from_step) =
        (eventsOf st rid).takeWhile (fun e => e.step != from_step) := by
      unfold eventsOf
      dsimp only
      rw [alGetD_alSet_self]
    rw [hevST] at hp
    exact hp
  refine ⟨?_, ?_, ?_⟩
  · intro w graphs profiles rid from_step fuel st run hrun
    obtain ⟨tail, htail⟩ := hpre w graphs profiles rid from_step fuel st run hrun
    exact ⟨tail, htail.symm⟩
  · intro w graphs profiles rid from_step fuel st run hrun
    have hchild := List.prefix_iff_eq_take.mp (hpre w graphs profiles rid from_step fuel st run hrun)
    have hparent := List.prefix_iff_eq_take.mp
      (List.takeWhile_prefix (fun e => e.step != from_step) (l := eventsOf st rid))
    rw [← hchild, ← hparent]
  · intro w graphs profiles rid from_step fuel st
    cases hrun : alGet st.runs rid with
    | none =>
        unfold replay_from
        rw [hrun]
    | some run =>
        rw [replay_from_state w graphs profiles rid from_step fuel st run hrun]
        obtain ⟨_, hframe, _, _⟩ := execute_graph_spec w graphs profiles
          (rid ++ "-replay-" ++ from_step) fuel
          { st with
        runs := alSet st.runs (rid ++ "-replay-" ++ from_step)
                  { id := rid ++ "-replay-" ++ from_step, graph := run.graph,
                    inputs := run.inputs, status := "pending", created_at := st.clock,
                    parent_run := some rid },
        events := alSet st.events (rid ++ "-replay-" ++ from_step)
                    ((eventsOf st rid).takeWhile (fun e => e.step != from_step)) }
        rw [hframe rid (hne rid from_step)]
        unfold eventsOf
        dsimp only
        rw [alGetD_alSet_ne _ _ _ _ _ (hne rid from_step)]
